import Mathlib

/-! abstract-fps: target state machine and hit resolution.

A shallow embedding of `source/TargetEntity.h`, `source/TargetEntity.cpp` and of these
routines of `source/App.cpp`: `App::fire`, `App::destroyTarget`, `App::spawnRandomTarget`,
the projectile loop of `App::onSimulation`, the left-mouse part of `App::onUserInput` and
the display-lag blocks of `App::onGraphics3D`. `FlyingEntity::setDestinations`,
`FlyingEntity::onSimulation` and `JumpingEntity::onSimulation` are declared in
`TargetEntity.h` but their bodies are not in the sources; what is needed of them is
modelled from the spec and marked so.

Modelling conventions
* `float`, `SimTime` and `RealTime` values are exact rationals (`ℚ`): the finite values of
  the C++ scalars, with arithmetic carried out without rounding. Where the code takes a
  square root (`Vector3::direction()`, the projection onto the orbit sphere) the scalars
  are exact reals (`ℝ`).
* `int` fields are `Int`. The conversion `(int)x` of a `float` is modelled with the 32-bit
  range of its result; of the other modelled operations only `destroyedTargets += 1` can
  leave that range, and it is modelled without wrap-around.
* `shared_ptr<TargetEntity>` elements of `targetArray` are the entity values themselves; a
  mutation through the pointer is a write-back at the same array index.
* G3D library routines (`VisibleEntity::intersect`, `Array::fastRemove`, `Array::last`,
  `System::time`, `simulatePose`) are modelled by their documented contract and taken as
  inputs where they read the world.
* Where the code tests a scalar for not-a-number (`isNaN(deltaTime)`), that argument is an
  `Option ℚ` with `none` for not-a-number.
* A call that has no defined result (an empty `Array::last()`, a `reader.get` on an absent
  key, a `bool` function without `return`) yields `none`.
-/

namespace AbstractFps

/-! ## Data model (`TargetEntity.h`) -/

/-- G3D `Point3` / `Vector3`: three scalar coordinates. -/
structure Point3 where
  x : ℚ
  y : ℚ
  z : ℚ
  deriving DecidableEq, Repr

/-- G3D `Color3`. -/
structure Color3 where
  r : ℚ
  g : ℚ
  b : ℚ
  deriving DecidableEq, Repr

/-- G3D `CFrame`: a rotation (row-major 3x3 entries) and a translation. -/
structure CFrame where
  rotation : List ℚ
  translation : Point3
  deriving DecidableEq, Repr

/-- The `Point3(0,0,0)` / `Vector3::zero()` value. -/
def Point3.zero : Point3 := ⟨0, 0, 0⟩

/-- The `Color3::red()` value. -/
def Color3.red : Color3 := ⟨1, 0, 0⟩

/-- The identity coordinate frame, the default of `Entity::m_frame`. -/
def CFrame.identity : CFrame := ⟨[1, 0, 0, 0, 1, 0, 0, 0, 1], Point3.zero⟩

/-- The `Destination` struct: a timestamped waypoint. -/
structure Destination where
  position : Point3 := Point3.zero
  time : ℚ := 0
  deriving DecidableEq, Repr

/-- The data members of `class TargetEntity`, together with the members inherited from
`Entity` that the modelled code reads or writes (`m_name`, `m_frame`, `m_previousFrame`). -/
structure TargetEntity where
  m_name : String := ""
  m_frame : CFrame := CFrame.identity
  m_previousFrame : CFrame := CFrame.identity
  m_health : ℚ := 1
  m_color : Color3 := Color3.red
  destinationIdx : Int := 0
  m_spawnTime : ℚ := 0
  m_respawnCount : Int := 0
  m_paramIdx : Int := -1
  m_worldSpace : Bool := false
  m_scaleIdx : Int := 0
  m_isLogged : Bool := true
  m_offset : Point3 := Point3.zero
  m_destinations : List Destination := []
  m_nextChangeTime : ℚ := 0
  m_velocity : Point3 := Point3.zero
  deriving DecidableEq, Repr

namespace TargetEntity

/-- The getter `float health() { return m_health; }`. -/
def health (t : TargetEntity) : ℚ := t.m_health

/-- The getter `int respawnsRemaining() { return m_respawnCount; }`. -/
def respawnsRemaining (t : TargetEntity) : Int := t.m_respawnCount

/-- The method `bool doDamage(float damage)`:
`m_health -= damage; return m_health <= 0;`.
Returns the boolean result and the entity after the call. -/
def doDamage (t : TargetEntity) (damage : ℚ) : Bool × TargetEntity :=
  let t1 := { t with m_health := t.m_health - damage }
  (decide (t1.m_health ≤ 0), t1)

/-- The method `bool respawn()`: a zero count returns `false` at once; a positive count is
decremented; then (positive or negative count) spawn time and health are reset and the
call returns `true`. -/
def respawn (t : TargetEntity) : Bool × TargetEntity :=
  if t.m_respawnCount = 0 then
    (false, t)
  else
    let t1 := if t.m_respawnCount > 0 then { t with m_respawnCount := t.m_respawnCount - 1 } else t
    let t2 := { t1 with m_spawnTime := 0 }
    let t3 := { t2 with m_health := 1 }
    (true, t3)

/-- The entity after `k` consecutive calls of `respawn()`. -/
def respawnIter : Nat → TargetEntity → TargetEntity
  | 0, t => t
  | k + 1, t => respawnIter k (respawn t).2

/-- The boolean returned by call number `k + 1` in a run of consecutive `respawn()` calls. -/
def respawnResult (k : Nat) (t : TargetEntity) : Bool :=
  (respawn (respawnIter k t)).1

end TargetEntity

/-! ## Hit resolution (`App::fire`, `App::destroyTarget` in `App.cpp`) -/

/-- The fields of `experimentConfig.weapon` read by the damage model of `App::fire`. -/
structure WeaponConfig where
  firePeriod : ℚ := 0
  damagePerSecond : ℚ := 0
  autoFire : Bool := false
  deriving DecidableEq, Repr

/-- The part of the `App` state that `App::fire` reads and writes: the live target array,
the destroyed-target counter, the hitscan switch, the weapon configuration, and the two
function-local statics of `fire` (`static bool hitTarget = false; static RealTime lastTime;`). -/
structure App where
  targetArray : List TargetEntity := []
  destroyedTargets : Int := 0
  m_hitScan : Bool := true
  weapon : WeaponConfig := {}
  hitTarget : Bool := false
  lastTime : ℚ := 0
  deriving DecidableEq, Repr

/-- The two readings of `System::time()` taken by one hit evaluation of `App::fire`:
`atDamage` is the reading inside the continuous-mode branch (`System::time() - lastTime`),
`atStamp` the reading stored by `lastTime = System::time()`. -/
structure FireClock where
  atDamage : ℚ
  atStamp : ℚ
  deriving DecidableEq, Repr

/-- The value `finf()`: the distance bound is `none` for plus infinity, `some d` otherwise. -/
def finf : Option ℚ := none

/-- Contract of G3D `VisibleEntity::intersect(ray, maxDistance)`. The first argument is
the distance at which the ray meets the entity (`none` when it misses it). The test
succeeds only if that distance is smaller than `maxDistance`, and then lowers
`maxDistance` to it. Returns the boolean and the updated `maxDistance`. -/
def intersect (hitDistance : Option ℚ) (maxDistance : Option ℚ) : Bool × Option ℚ :=
  match hitDistance, maxDistance with
  | none, _ => (false, maxDistance)
  | some d, none => (true, some d)
  | some d, some m => if d < m then (true, some d) else (false, some m)

/-- The closest-hit loop of `App::fire`,
`for (int t = 0; t < targetArray.size(); ++t) if (targetArray[t]->intersect(ray, closest)) closestIndex = t;`
run over the remaining targets from loop index `t` with the current `closest` and
`closestIndex`. `hit` gives, for the camera look ray, each target's hit distance. -/
def closestScanLoop (hit : TargetEntity → Option ℚ) :
    List TargetEntity → Nat → Option ℚ → Int → Option ℚ × Int
  | [], _, closest, closestIndex => (closest, closestIndex)
  | tgt :: rest, t, closest, closestIndex =>
    let r := intersect (hit tgt) closest
    closestScanLoop hit rest (t + 1) r.2 (if r.1 then (t : Int) else closestIndex)

/-- The closest-hit scan with its initial values `closest = finf()`, `closestIndex = -1`. -/
def closestScan (hit : TargetEntity → Option ℚ) (targetArray : List TargetEntity) :
    Option ℚ × Int :=
  closestScanLoop hit targetArray 0 finf (-1)

/-- G3D `Array::fastRemove(index)`: `data[index] = data[num - 1]; resize(num - 1)`. -/
def fastRemove {α : Type} (a : List α) (index : Nat) : List α :=
  match a.getLast? with
  | none => a
  | some last => (a.set index last).dropLast

/-- The routine `App::destroyTarget(index)`: the target is removed from `targetArray`
with `fastRemove` (the removal from the scene graph is outside the model). -/
def App.destroyTarget (app : App) (index : Nat) : App :=
  { app with targetArray := fastRemove app.targetArray index }

/-- The damage computed by `App::fire` for the selected target:
the target health when `destroyImmediately`; `damagePerSecond * dt` with
`dt = System::time() - lastTime` when `firePeriod == 0.0f && hitTarget`;
`damagePerSecond * firePeriod` otherwise. -/
def fireDamage (weapon : WeaponConfig) (destroyImmediately : Bool) (hitTarget : Bool)
    (lastTime : ℚ) (clock : FireClock) (target : TargetEntity) : ℚ :=
  if destroyImmediately then
    target.health
  else if weapon.firePeriod = 0 ∧ hitTarget = true then
    let dt := clock.atDamage - lastTime
    weapon.damagePerSecond * dt
  else
    weapon.damagePerSecond * weapon.firePeriod

/-- The routine `App::fire(destroyImmediately)`, restricted to the target state: the
closest-hit scan, the damage model, `doDamage`, removal of a destroyed target and the
`hitTarget` / `lastTime` statics. Bullets, decals, sounds, combat text and the explosion
entity do not touch this state and are left out. Returns the returned target pointer
(`none` for `nullptr`, otherwise the entity after damage) and the new `App` state.
The `none` arm of the array read stands for an out-of-range `targetArray[closestIndex]`;
the scan never produces one (`closestScan_spec`). -/
def App.fire (app : App) (hit : TargetEntity → Option ℚ) (clock : FireClock)
    (destroyImmediately : Bool) : Option TargetEntity × App :=
  if app.m_hitScan then
    let closestIndex := (closestScan hit app.targetArray).2
    if closestIndex ≥ 0 then
      match app.targetArray[closestIndex.toNat]? with
      | none => (none, app)
      | some target =>
        let damage := fireDamage app.weapon destroyImmediately app.hitTarget app.lastTime
          clock target
        let app1 := { app with lastTime := clock.atStamp, hitTarget := true }
        let r := target.doDamage damage
        let app2 := { app1 with targetArray := app1.targetArray.set closestIndex.toNat r.2 }
        if r.1 then
          let app3 := app2.destroyTarget closestIndex.toNat
          (some r.2, { app3 with destroyedTargets := app3.destroyedTargets + 1 })
        else
          (some r.2, app2)
    else
      (none, { app with hitTarget := false })
  else
    (none, app)


/-- The element `targetArray[closestIndex]` that `App::fire` reads after its scan when
`closestIndex >= 0`; `none` when the scan ends with `closestIndex = -1`. -/
def selectedTarget (hit : TargetEntity → Option ℚ) (targetArray : List TargetEntity) :
    Option TargetEntity :=
  let closestIndex := (closestScan hit targetArray).2
  if closestIndex ≥ 0 then targetArray[closestIndex.toNat]? else none

/-! ## Concrete scenes used to evaluate the model -/

/-- A target named `near`, at full health. -/
def nearTarget : TargetEntity := { m_name := "near" }

/-- A target named `far`, at full health. -/
def farTarget : TargetEntity := { m_name := "far" }

/-- A ray meeting `near` at distance 5.0 and `far` at distance 12.0. -/
def rayThroughBoth (t : TargetEntity) : Option ℚ :=
  if t.m_name = "near" then some 5 else if t.m_name = "far" then some 12 else none

/-- A ray meeting only `near`, at distance 5.0. -/
def rayAtNear (t : TargetEntity) : Option ℚ :=
  if t.m_name = "near" then some 5 else none

/-- A ray meeting only `far`, at distance 12.0. -/
def rayAtFar (t : TargetEntity) : Option ℚ :=
  if t.m_name = "far" then some 12 else none

/-- A laser-mode scene (`firePeriod = 0`, `damagePerSecond = 1/2`) with two live targets. -/
def laserScene : App :=
  { targetArray := [nearTarget, farTarget],
    weapon := { firePeriod := 0, damagePerSecond := 1 / 2, autoFire := true } }

/-- A single-shot scene (`firePeriod = 1/2`, `damagePerSecond = 1`) with two live targets. -/
def rifleScene : App :=
  { targetArray := [nearTarget, farTarget],
    weapon := { firePeriod := 1 / 2, damagePerSecond := 1, autoFire := false } }

/-- A full-health target with two respawns left. -/
def twoLives : TargetEntity := { m_name := "twoLives", m_respawnCount := 2 }

/-- A full-health target with one respawn left (`health = 1.0`, `respawnCount = 1`). -/
def oneLife : TargetEntity := { m_name := "oneLife", m_health := 1, m_respawnCount := 1 }

/-- A destroyed target with no respawn left, some time after its spawn. -/
def spentTarget : TargetEntity :=
  { m_name := "spent", m_health := -1 / 5, m_spawnTime := 3, m_respawnCount := 0 }

/-- A destroyed target with a negative respawn count (infinite lives). -/
def endlessLives : TargetEntity :=
  { m_name := "endless", m_health := -1 / 5, m_spawnTime := 3, m_respawnCount := -1 }


/-! ## Runs of calls and of fire evaluations -/

/-- One public call on a target: `doDamage(damage)` or `respawn()`. -/
inductive TargetCall where
  | doDamage (damage : ℚ)
  | respawn
  deriving DecidableEq, Repr

/-- The entity after one call (the returned boolean is dropped). -/
def TargetEntity.call (t : TargetEntity) : TargetCall → TargetEntity
  | TargetCall.doDamage damage => (t.doDamage damage).2
  | TargetCall.respawn => t.respawn.2

/-- The entity after a sequence of calls, made in list order. -/
def TargetEntity.callAll : List TargetCall → TargetEntity → TargetEntity
  | [], t => t
  | c :: cs, t => TargetEntity.callAll cs (t.call c)

/-- The getter `float getPathTime() { return m_destinations.last().time; }`.
G3D `Array::last()` asserts `num - 1 >= 0` and has no element to return for an empty
array: that failure is `none`. -/
def TargetEntity.getPathTime (t : TargetEntity) : Option ℚ :=
  t.m_destinations.getLast?.map (fun d => d.time)

/-- The test `isNaN(x)` on a `SimTime` argument, where `none` stands for not-a-number and
`some q` for the finite value `q`. -/
def isNaN (x : Option ℚ) : Bool := x.isNone

/-- The method `TargetEntity::onSimulation(absoluteTime, deltaTime)`:
`if (!(isNaN(deltaTime) || (deltaTime == 0))) m_previousFrame = m_frame;`
then `simulatePose(absoluteTime, deltaTime)`; the trailing `if (deltaTime > 0)` block is
empty. `simulatePose` is the G3D routine, taken as a function on the entity. -/
def TargetEntity.onSimulation
    (simulatePose : ℚ → Option ℚ → TargetEntity → TargetEntity)
    (t : TargetEntity) (absoluteTime : ℚ) (deltaTime : Option ℚ) : TargetEntity :=
  let t1 :=
    if ¬ (isNaN deltaTime = true ∨ deltaTime = some 0) then
      { t with m_previousFrame := t.m_frame }
    else t
  simulatePose absoluteTime deltaTime t1

/-- The typed view an `AnyTableReader` gives of a `Destination` record: the three keys
the constructor asks for, each present or absent, and the names of any other keys
(which are never read: the constructor does not call `verifyDone`). -/
structure DestinationAny where
  settingsVersion : Option Int := none
  t : Option ℚ := none
  xyz : Option Point3 := none
  otherKeys : List String := []
  deriving DecidableEq, Repr

/-- The constructor `Destination(const Any& any)`: `settingsVersion` defaults to 1 and
is overwritten by `getIfPresent`; `case 1` reads the required keys `t` and `xyz`
(`reader.get` throws when the key is absent: `none`); `default` only prints a message and
leaves the members at their initialisers `Point3(0,0,0)` and `0.0`. -/
def Destination.ofAny (any : DestinationAny) : Option Destination :=
  let settingsVersion : Int := any.settingsVersion.getD 1
  if settingsVersion = 1 then
    match any.t with
    | none => none
    | some time =>
      match any.xyz with
      | none => none
      | some position => some { position := position, time := time }
  else
    some { position := Point3.zero, time := 0 }

/-- G3D `Vector2` / `Point2`. -/
structure Vector2 where
  x : ℚ
  y : ℚ
  deriving DecidableEq, Repr

/-- G3D `AABox`: low and high corner. -/
structure AABox where
  lo : Point3
  hi : Point3
  deriving DecidableEq, Repr

/-- The data members of `class JumpingEntity : public TargetEntity`. -/
structure JumpingEntity extends TargetEntity where
  m_speed : Vector2
  m_simulatedPos : Point3
  m_planarSpeedGoal : ℚ
  m_acc : Vector2
  m_jumpSpeed : ℚ
  m_orbitCenter : Point3
  m_orbitRadius : ℚ
  m_motionChangeTimer : ℚ
  m_jumpTimer : ℚ
  m_inJump : Bool
  m_jumpTime : ℚ
  m_standingHeight : ℚ
  m_angularSpeedRange : Vector2
  m_motionChangePeriodRange : Vector2
  m_jumpPeriodRange : Vector2
  m_jumpSpeedRange : Vector2
  m_gravityRange : Vector2
  m_distanceRange : Vector2
  m_planarAcc : ℚ := 3 / 10
  m_isFirstFrame : Bool := true
  m_nextJumpTime : ℚ := 0
  m_bounds : AABox := ⟨Point3.zero, Point3.zero⟩
  m_axisLocks : List Bool := [false, false, false]
  deriving DecidableEq, Repr

/-- The method `bool JumpingEntity::respawn()`, whose body is
`TargetEntity::respawn(); m_isFirstFrame = true;`: the base result is discarded and
there is no `return` statement, so the call yields no defined boolean (`none`). -/
def JumpingEntity.respawn (j : JumpingEntity) : Option Bool × JumpingEntity :=
  let r := j.toTargetEntity.respawn
  let j1 := { j with toTargetEntity := r.2 }
  let j2 := { j1 with m_isFirstFrame := true }
  (none, j2)

/-! ## More concrete scenes -/

/-- A ray that meets no target. -/
def rayAtNothing (_t : TargetEntity) : Option ℚ := none

/-- A ray that meets every target at distance 7.0. -/
def rayAtAll (_t : TargetEntity) : Option ℚ := some 7

/-- A rifle scene whose only target still has one respawn. -/
def respawnScene : App :=
  { targetArray := [oneLife],
    weapon := { firePeriod := 1 / 2, damagePerSecond := 1, autoFire := false } }

/-- A target with a two-waypoint path ending at time 4. -/
def pathTarget : TargetEntity :=
  { m_name := "path",
    m_destinations := [{ position := ⟨0, 0, 0⟩, time := 0 }, { position := ⟨1, 2, 3⟩, time := 4 }] }

/-- A target that has moved: its frame differs from its previous frame. -/
def movedTarget : TargetEntity :=
  { m_name := "moved", m_frame := ⟨[1, 0, 0, 0, 1, 0, 0, 0, 1], ⟨1, 2, 3⟩⟩ }

/-- A `simulatePose` that only moves the frame one unit along x. -/
def slidePose (_absoluteTime : ℚ) (_deltaTime : Option ℚ) (t : TargetEntity) : TargetEntity :=
  { t with m_frame := { t.m_frame with
      translation := ⟨t.m_frame.translation.x + 1, t.m_frame.translation.y,
        t.m_frame.translation.z⟩ } }

/-- A `Destination` record of an unknown version 2 that still carries `t` and `xyz`. -/
def versionTwoRecord : DestinationAny :=
  { settingsVersion := some 2, t := some 4, xyz := some ⟨1, 2, 3⟩ }

/-- A `Destination` record without a version field. -/
def plainRecord : DestinationAny := { t := some 4, xyz := some ⟨1, 2, 3⟩ }

/-- A jumping target past its first frame, destroyed, with no respawn left. -/
def spentJumper : JumpingEntity :=
  { toTargetEntity := spentTarget,
    m_speed := ⟨0, 0⟩, m_simulatedPos := Point3.zero, m_planarSpeedGoal := 0, m_acc := ⟨0, 0⟩,
    m_jumpSpeed := 0, m_orbitCenter := Point3.zero, m_orbitRadius := 1,
    m_motionChangeTimer := 0, m_jumpTimer := 0, m_inJump := false, m_jumpTime := 0,
    m_standingHeight := 0, m_angularSpeedRange := ⟨0, 0⟩, m_motionChangePeriodRange := ⟨0, 0⟩,
    m_jumpPeriodRange := ⟨0, 0⟩, m_jumpSpeedRange := ⟨0, 0⟩, m_gravityRange := ⟨0, 0⟩,
    m_distanceRange := ⟨0, 0⟩, m_isFirstFrame := false }

/-! ## Material index, projectile expiry, input handler, delay buffers (`App.cpp`) -/

/-- Truncation toward zero of a scalar. -/
def truncate (x : ℚ) : Int := if 0 ≤ x then ⌊x⌋ else ⌈x⌉

/-- The conversion `(int)x` of a `float` to the 32-bit `int`: truncation toward zero when
the truncated value lies in `[-2^31, 2^31 - 1]`. Outside that range C++ leaves the result
undefined; the conversion instruction of the x86 machines the program is built for then
yields `-2^31`, and that is the value modelled. -/
def truncToInt (x : ℚ) : Int :=
  if -2147483648 ≤ truncate x ∧ truncate x ≤ 2147483647 then truncate x else -2147483648

/-- The index expression of the survive branch of `App::fire`,
`min((int)(target->health()*m_MatTableSize), m_MatTableSize-1)`, used to read
`m_materials`. `m_MatTableSize` is an `int` declared outside the sources and is a
parameter; the product is a `float`, converted by the 32-bit cast. -/
def materialIndex (m_MatTableSize : Int) (health : ℚ) : Int :=
  min (truncToInt (health * (m_MatTableSize : ℚ))) (m_MatTableSize - 1)

/-- One element of `projectileArray`: the bullet entity (by name) and its expiry time. -/
structure Projectile where
  entity : String
  endTime : ℚ
  deriving DecidableEq, Repr

/-- The projectile loop of `App::onSimulation`,
`for (int p = 0; p < projectileArray.size(); ++p)`: an element with `endTime < now` is
removed with `fastRemove(p)` and the index is retreated (`--p`, so the next pass reads
slot `p` again); any other element is animated (a write to the bullet entity, not to the
array) and the index advances. Returns the final array and, as a log, the elements read
by `projectileArray[p]` in order. -/
def expireProjectiles (now : ℚ) (projectileArray : List Projectile) (p : Nat) :
    List Projectile × List Projectile :=
  if h : p < projectileArray.length then
    if (projectileArray.get ⟨p, h⟩).endTime < now then
      let r := expireProjectiles now (fastRemove projectileArray p) p
      (r.1, projectileArray.get ⟨p, h⟩ :: r.2)
    else
      let r := expireProjectiles now projectileArray (p + 1)
      (r.1, projectileArray.get ⟨p, h⟩ :: r.2)
  else
    (projectileArray, [])
termination_by projectileArray.length - p
decreasing_by
  · have hlen : (fastRemove projectileArray p).length + 1 = projectileArray.length := by
      unfold fastRemove
      cases hl : projectileArray.getLast? with
      | none =>
        have : projectileArray = [] := List.getLast?_eq_none_iff.mp hl
        rw [this] at h
        simp at h
      | some last =>
        simp only [List.length_dropLast, List.length_set]
        omega
    omega
  · omega

/-- What `App::onUserInput` samples for the left mouse button in one frame:
`ui->keyReleased(GKey::LEFT_MOUSE)`, `ui->keyDown(GKey::LEFT_MOUSE)`,
`ex->presentationState == PresentationState::task` and `ex->responseReady()`. -/
structure UserInput where
  keyReleased : Bool
  keyDown : Bool
  inTask : Bool
  responseReady : Bool
  deriving DecidableEq, Repr

/-- The state `App::onUserInput` carries between frames: its statics
`haveReleased` and `fired` (both initially `false`) and the member `m_buttonUp`. -/
structure InputState where
  haveReleased : Bool := false
  fired : Bool := false
  m_buttonUp : Bool := false
  deriving DecidableEq, Repr

/-- The strings handed to `ex->accumulatePlayerAction`. -/
inductive PlayerAction where
  | destroy
  | hit
  | miss
  | invalid
  | nonTask
  deriving DecidableEq, Repr

/-- The left-mouse part of `App::onUserInput` for one frame. Returns the new state,
whether `fire()` is called in this frame, and the action logged without a `fire()` result
(`invalid`, `non-task`), if any. -/
def onUserInput (autoFire : Bool) (s : InputState) (ui : UserInput) :
    InputState × Bool × Option PlayerAction :=
  let s1 :=
    if ui.keyReleased then
      let a := { s with m_buttonUp := true }
      if ¬ autoFire then { a with haveReleased := true, fired := false } else a
    else s
  if ui.keyDown then
    let r : InputState × Bool × Option PlayerAction :=
      if autoFire ∨ s1.haveReleased = true then
        if ui.inTask then
          if ui.responseReady then ({ s1 with fired := true }, true, none)
          else (s1, false, some PlayerAction.invalid)
        else (s1, false, none)
      else (s1, false, some PlayerAction.nonTask)
    ({ r.1 with haveReleased := false, m_buttonUp := false }, r.2.1, r.2.2)
  else
    (s1, false, none)

/-- The handler state before frame `n` of an input stream. -/
def inputStateAt (autoFire : Bool) (start : InputState) (ui : Nat → UserInput) :
    Nat → InputState
  | 0 => start
  | n + 1 => (onUserInput autoFire (inputStateAt autoFire start ui n) (ui n)).1

/-- Whether `onUserInput` calls `fire()` in frame `n` of an input stream. -/
def firesAt (autoFire : Bool) (start : InputState) (ui : Nat → UserInput) (n : Nat) : Bool :=
  (onUserInput autoFire (inputStateAt autoFire start ui n) (ui n)).2.1

/-- The action `App::onUserInput` logs from the pointer returned by `fire()`:
`miss` for `nullptr`, `destroy` when `t->health() <= 0`, `hit` otherwise. -/
def fireAction : Option TargetEntity → PlayerAction
  | none => PlayerAction.miss
  | some t => if t.health ≤ 0 then PlayerAction.destroy else PlayerAction.hit

/-- The display-lag state of `App::onGraphics3D`. A buffer of the queue stands by the
number in its name (`"Delay buffer %d"`, the queue size when it was pushed). -/
structure DelayBuffers where
  m_displayLagFrames : Int
  m_currentDelayBufferIndex : Int
  m_ldrDelayBufferQueue : List Nat
  deriving DecidableEq, Repr

/-- The allocation loop `for (int i = ...; i >= 0; --i) m_ldrDelayBufferQueue.push(...)`,
from loop variable `i`. -/
def allocateDelayBuffers (i : Int) (queue : List Nat) : List Nat :=
  if 0 ≤ i then allocateDelayBuffers (i - 1) (queue ++ [queue.length]) else queue
termination_by (i + 1).toNat
decreasing_by omega

/-- The first display-lag block of `App::onGraphics3D`: when `m_displayLagFrames > 0`,
allocate if `size() <= m_displayLagFrames`, then clamp the index with `min`. -/
def DelayBuffers.beforeRender (s : DelayBuffers) : DelayBuffers :=
  if 0 < s.m_displayLagFrames then
    let queue :=
      if (s.m_ldrDelayBufferQueue.length : Int) ≤ s.m_displayLagFrames then
        allocateDelayBuffers (s.m_displayLagFrames - (s.m_ldrDelayBufferQueue.length : Int))
          s.m_ldrDelayBufferQueue
      else s.m_ldrDelayBufferQueue
    { s with
      m_ldrDelayBufferQueue := queue,
      m_currentDelayBufferIndex := min s.m_displayLagFrames s.m_currentDelayBufferIndex }
  else s

/-- The second display-lag block of `App::onGraphics3D`: when `m_displayLagFrames > 0`,
`m_currentDelayBufferIndex = (m_currentDelayBufferIndex + 1) % (m_displayLagFrames + 1)`
(the C++ remainder truncates toward zero). -/
def DelayBuffers.afterRender (s : DelayBuffers) : DelayBuffers :=
  if 0 < s.m_displayLagFrames then
    { s with m_currentDelayBufferIndex :=
        Int.tmod (s.m_currentDelayBufferIndex + 1) (s.m_displayLagFrames + 1) }
  else s

/-! ## `FlyingEntity` (declared in `TargetEntity.h`; method bodies are not in the sources) -/

/-- The data members of `class FlyingEntity : public TargetEntity`. The queue
`m_destinationPoints` is a list with its head at the front. -/
structure FlyingEntity extends TargetEntity where
  m_speed : ℚ := 0
  m_orbitCenter : Point3
  m_angularSpeedRange : Vector2 := ⟨0, 4⟩
  m_motionChangePeriodRange : Vector2 := ⟨10000, 10000⟩
  m_destinationPoints : List Point3
  m_upperHemisphereOnly : Bool
  m_bounds : AABox := ⟨Point3.zero, Point3.zero⟩
  m_axisLocks : List Bool := [false, false, false]
  deriving DecidableEq, Repr

/-- Modelled from the spec: the 170 degree separation rule checked by
`FlyingEntity::setDestinations`, whose body is missing from the sources. Every pair of
consecutive destination points must subtend at most 170 degrees at the orbit center.
`subtendedDegrees center a b` is the angle in degrees, a math-library computation taken
as a parameter. -/
def separationOk (subtendedDegrees : Point3 → Point3 → Point3 → ℚ) (orbitCenter : Point3) :
    List Point3 → Bool
  | a :: b :: rest =>
    decide (subtendedDegrees orbitCenter a b ≤ 170) &&
      separationOk subtendedDegrees orbitCenter (b :: rest)
  | _ => true

/-- Modelled from the spec: `FlyingEntity::setDestinations(destinationArray, orbitCenter)`,
declared in `TargetEntity.h` with its body missing from the sources. Per the spec it
replaces the destinations and resets the destination index to 0, and fails (`none`) when
the 170 degree separation rule is violated. The orbit center passed in is the one the
rule is checked against and is stored. -/
def FlyingEntity.setDestinations (subtendedDegrees : Point3 → Point3 → Point3 → ℚ)
    (e : FlyingEntity) (destinationArray : List Point3) (orbitCenter : Point3) :
    Option FlyingEntity :=
  if separationOk subtendedDegrees orbitCenter destinationArray = true then
    some { e with
      m_destinationPoints := destinationArray,
      m_orbitCenter := orbitCenter,
      destinationIdx := 0 }
  else
    none

/-- The height of a point relative to the horizontal plane through the orbit center
(`y` is the vertical axis). -/
def heightAbove (orbitCenter p : Point3) : ℚ := p.y - orbitCenter.y

/-- The mirror image of a point across the horizontal plane through the orbit center:
the vertical offset is negated. -/
def mirrorAcross (orbitCenter p : Point3) : Point3 :=
  ⟨p.x, orbitCenter.y - (p.y - orbitCenter.y), p.z⟩

/-- A scalar clamped into `[lo, hi]`. -/
def clampScalar (lo hi x : ℚ) : ℚ := max lo (min hi x)

/-- A point clamped into an axis-aligned box. -/
def clampInto (b : AABox) (p : Point3) : Point3 :=
  ⟨clampScalar b.lo.x b.hi.x p.x, clampScalar b.lo.y b.hi.y p.y, clampScalar b.lo.z b.hi.z p.z⟩

/-- The move from `old` to `new` with the delta zeroed on every locked axis. -/
def lockAxes (locks : List Bool) (old new : Point3) : Point3 :=
  ⟨if locks.getD 0 false then old.x else new.x,
   if locks.getD 1 false then old.y else new.y,
   if locks.getD 2 false then old.z else new.z⟩

/-- Modelled from the spec: one tick of `FlyingEntity::onSimulation`, whose body is
missing from the sources, after section 4.2 of the spec. `advance` stands for steps 1 and
2 (timer resampling and the move along the great-circle arc, with waypoints dequeued as
reached) and returns the candidate position and the remaining queue. Step 3: if
`upperHemisphereOnly` is set and the candidate is below the horizontal plane of the orbit
center, the position and all queued points are mirrored across that plane. Step 4: in
world-space mode the delta is zeroed on locked axes and the position is clamped into
`bounds`. The previous frame is cached first unless the delta is zero or not-a-number. -/
def FlyingEntity.onSimulation
    (advance : FlyingEntity → Option ℚ → Point3 × List Point3)
    (e : FlyingEntity) (deltaTime : Option ℚ) : FlyingEntity :=
  let previous :=
    if ¬ (isNaN deltaTime = true ∨ deltaTime = some 0) then e.m_frame else e.m_previousFrame
  let step := advance e deltaTime
  let below : Bool :=
    e.m_upperHemisphereOnly && decide (heightAbove e.m_orbitCenter step.1 < 0)
  let position := if below then mirrorAcross e.m_orbitCenter step.1 else step.1
  let queue := if below then step.2.map (mirrorAcross e.m_orbitCenter) else step.2
  let final :=
    if e.m_worldSpace then
      clampInto e.m_bounds (lockAxes e.m_axisLocks e.m_frame.translation position)
    else position
  { e with
    m_previousFrame := previous,
    m_frame := { e.m_frame with translation := final },
    m_destinationPoints := queue }

/-! ## Geometry over the reals (`App::spawnRandomTarget`, the ballistic correction)

Where the code normalises a vector (`Vector3::direction()` divides by a square root) the
coordinates are modelled as exact real numbers. -/

/-- G3D `Vector3` / `Point3` with real coordinates, for the routines that normalise. -/
@[ext]
structure Vector3 where
  x : ℝ
  y : ℝ
  z : ℝ

/-- The sum `a + b` of G3D `Vector3`. -/
noncomputable instance Vector3.instAdd : Add Vector3 :=
  ⟨fun a b => ⟨a.x + b.x, a.y + b.y, a.z + b.z⟩⟩

/-- The difference `a - b` of G3D `Vector3`. -/
noncomputable instance Vector3.instSub : Sub Vector3 :=
  ⟨fun a b => ⟨a.x - b.x, a.y - b.y, a.z - b.z⟩⟩

/-- The negation `-a` of G3D `Vector3`. -/
noncomputable instance Vector3.instNeg : Neg Vector3 :=
  ⟨fun a => ⟨-a.x, -a.y, -a.z⟩⟩

/-- The product `a * s` of a G3D `Vector3` with a scalar. -/
noncomputable instance Vector3.instHMul : HMul Vector3 ℝ Vector3 :=
  ⟨fun a s => ⟨a.x * s, a.y * s, a.z * s⟩⟩

/-- G3D `Vector3::unitY()`. -/
noncomputable def Vector3.unitY : Vector3 := ⟨0, 1, 0⟩

/-- G3D `Vector3::dot`. -/
noncomputable def Vector3.dot (a b : Vector3) : ℝ := a.x * b.x + a.y * b.y + a.z * b.z

/-- G3D `Vector3::cross`. -/
noncomputable def Vector3.cross (a b : Vector3) : Vector3 :=
  ⟨a.y * b.z - a.z * b.y, a.z * b.x - a.x * b.z, a.x * b.y - a.y * b.x⟩

/-- G3D `Vector3::squaredMagnitude`. -/
noncomputable def Vector3.squaredMagnitude (a : Vector3) : ℝ := a.x * a.x + a.y * a.y + a.z * a.z

/-- G3D `Vector3::magnitude`: the square root of the squared magnitude. -/
noncomputable def Vector3.magnitude (a : Vector3) : ℝ := Real.sqrt a.squaredMagnitude

/-- G3D `Vector3::direction`: the vector times `1 / sqrt(squaredMagnitude)`. -/
noncomputable def Vector3.direction (a : Vector3) : Vector3 :=
  a * (1 / Real.sqrt a.squaredMagnitude)

/-- The angle in degrees that the points `a` and `b` subtend at `center`: the arc cosine
of the normalised dot product of their offsets from the center. -/
noncomputable def subtendedAngle (center a b : Vector3) : ℝ :=
  Real.arccos ((a - center).dot (b - center) /
    ((a - center).magnitude * (b - center).magnitude)) * 180 / Real.pi

/-- One pair of draws `rng.uniform(-1, 1)` and `rng.uniform(-0.3f, 0.5f)`, which
`App::spawnRandomTarget` turns into a direction. -/
structure DirectionDraw where
  side : ℝ
  rise : ℝ

/-- The draws lie in the ranges they are drawn from. -/
def DirectionDraw.inRange (d : DirectionDraw) : Prop :=
  -1 ≤ d.side ∧ d.side ≤ 1 ∧ -(3 / 10) ≤ d.rise ∧ d.rise ≤ 1 / 2

/-- The random draws of one pass of the `do` loop of `App::spawnRandomTarget` that bear
on positions: the pair for the ray, the value of `rng.uniform(2.0f, distance - 1.0f)`,
and the pairs of the 20 passes of the destination loop. The draws for scale, spin and
colour are left out. -/
structure SpawnDraws where
  ray : DirectionDraw
  distance : ℝ
  destination : Nat → DirectionDraw

/-- Every draw of a pass lies in the range it is drawn from: the direction pairs in
theirs, and the distance between the two arguments of `rng.uniform(2.0f, hit - 1.0f)`
when the scene was hit at a distance `hit > 2`. -/
def SpawnDraws.inRange (d : SpawnDraws) (sceneHit : Option ℝ) : Prop :=
  d.ray.inRange ∧ (∀ i : Nat, (d.destination i).inRange) ∧
    (∀ hit : ℝ, sceneHit = some hit → 2 < hit →
      min 2 (hit - 1) ≤ d.distance ∧ d.distance ≤ max 2 (hit - 1))

/-- The reference axis `Z` of `App::spawnRandomTarget`: `Z = -lookVector; Z.y = 0;
Z = Z.direction()`. -/
noncomputable def spawnAxisZ (lookVector : Vector3) : Vector3 :=
  (Vector3.mk (-lookVector).x 0 (-lookVector).z).direction

/-- The random direction `(-Z + X * u + Y * v).direction()` of `App::spawnRandomTarget`,
with `Y = Vector3::unitY()` and `X = Y.cross(Z)`. -/
noncomputable def randomDirection (Z : Vector3) (d : DirectionDraw) : Vector3 :=
  (-Z + (Vector3.unitY.cross Z) * d.side + Vector3.unitY * d.rise).direction

/-- What one successful pass of `App::spawnRandomTarget` hands on: the position the
target is spawned at, and the two arguments of `setDestinations`. -/
structure SpawnResult where
  position : Vector3
  destinationArray : List Vector3
  center : Vector3

/-- One pass of the `do` loop of `App::spawnRandomTarget`. `translation` is the camera
position, `sceneIntersect origin direction` is the hit distance that
`scene()->intersect(ray, distance)` writes (`none` when `distance` stays `finf()`). The
pass spawns when `distance > 2.0f && distance < finf()`. -/
noncomputable def spawnRandomTargetPass (lookVector translation : Vector3)
    (sceneIntersect : Vector3 → Vector3 → Option ℝ) (d : SpawnDraws) : Option SpawnResult :=
  let Z := spawnAxisZ lookVector
  let dir := randomDirection Z d.ray
  match sceneIntersect translation dir with
  | none => none
  | some hit =>
    if 2 < hit then
      let distance := d.distance
      let position := translation + dir * distance
      let center := translation
      some {
        position := position,
        destinationArray := position ::
          (List.range 20).map (fun i => center + randomDirection Z (d.destination i) * distance),
        center := center }
    else none

/-- The loop `do ... while (!done && tries < 100)` of `App::spawnRandomTarget`, from the
pass numbered `tries`; `rng n` holds the draws of pass `n`. -/
noncomputable def spawnRandomTargetLoop (lookVector translation : Vector3)
    (sceneIntersect : Vector3 → Vector3 → Option ℝ) (rng : Nat → SpawnDraws) (tries : Nat) :
    Option SpawnResult :=
  match spawnRandomTargetPass lookVector translation sceneIntersect (rng tries) with
  | some result => some result
  | none =>
    if tries + 1 < 100 then
      spawnRandomTargetLoop lookVector translation sceneIntersect rng (tries + 1)
    else none
termination_by 100 - tries
decreasing_by omega

/-- The routine `App::spawnRandomTarget`, restricted to the positions it computes. -/
noncomputable def spawnRandomTarget (lookVector translation : Vector3)
    (sceneIntersect : Vector3 → Vector3 → Option ℝ) (rng : Nat → SpawnDraws) :
    Option SpawnResult :=
  spawnRandomTargetLoop lookVector translation sceneIntersect rng 0

/-- The motion state of a ballistic target that the correction step works on: the
horizontal (spherical) component, as an offset from the orbit center, and the vertical
jump offset. -/
structure BallisticPose where
  horizontal : Vector3
  jumpOffset : ℝ

/-- The position of the target: the orbit center plus the horizontal component plus the
jump offset along the vertical axis. -/
noncomputable def BallisticPose.position (orbitCenter : Vector3) (p : BallisticPose) : Vector3 :=
  orbitCenter + p.horizontal + Vector3.unitY * p.jumpOffset

/-- The horizontal distance of the target from the orbit center: the distance measured
on the horizontal component only, ignoring the jump offset. -/
noncomputable def BallisticPose.horizontalDistance (p : BallisticPose) : ℝ :=
  p.horizontal.magnitude

/-- Modelled from the spec: the correction step of `JumpingEntity::onSimulation`, whose
body is missing from the sources, after section 4.3 step 3 of the spec. If the distance
from the orbit center, measured on the horizontal component only, deviates from
`orbitRadius`, the horizontal component is rescaled back onto the sphere; the vertical
jump offset is left as it is. -/
noncomputable def surfaceCorrection (orbitRadius : ℝ) (p : BallisticPose) : BallisticPose :=
  if p.horizontalDistance = orbitRadius then p
  else { p with horizontal := p.horizontal * (orbitRadius / p.horizontalDistance) }

/-- Modelled from the spec: the end of one tick of `JumpingEntity::onSimulation`, after
section 4.3 of the spec: the horizontal displacement of the tick and the new vertical
jump offset (steps 1 and 2, taken as inputs) are summed into the pose, then the
correction step is applied. -/
noncomputable def ballisticTick (orbitRadius : ℝ) (displacement : Vector3) (jumpOffset : ℝ)
    (p : BallisticPose) : BallisticPose :=
  surfaceCorrection orbitRadius
    { horizontal := p.horizontal + displacement, jumpOffset := jumpOffset }

/-! ## Concrete inputs for the later theorems -/

/-- Three projectiles: the first and the last have expired at time 10. -/
def threeProjectiles : List Projectile :=
  [⟨"bullet001", 9⟩, ⟨"bullet002", 12⟩, ⟨"bullet003", 8⟩]

/-- An input stream with the button held down from frame 0 on, in task state, and a
single release event in frame 3. -/
def heldWithOneRelease (n : Nat) : UserInput :=
  { keyReleased := decide (n = 3), keyDown := true, inTask := true, responseReady := true }

/-- A rifle whose configured damage per second is negative and large: each shot adds
299999999 to the health of the target it hits. -/
def overhealScene : App :=
  { targetArray := [nearTarget], destroyedTargets := 0,
    weapon := { firePeriod := 1, damagePerSecond := -299999999, autoFire := false } }

/-- Display lag of 3 frames with one buffer allocated and a stale index 7. -/
def lagThree : DelayBuffers :=
  { m_displayLagFrames := 3, m_currentDelayBufferIndex := 7, m_ldrDelayBufferQueue := [0] }

/-- Display lag lowered to 2 frames while five buffers are queued and the index is 4. -/
def lagLowered : DelayBuffers :=
  { m_displayLagFrames := 2, m_currentDelayBufferIndex := 4,
    m_ldrDelayBufferQueue := [0, 1, 2, 3, 4] }

/-- The angle in degrees subtended at the origin by two of the six unit points of the
coordinate axes: 0 for equal points, 180 for opposite points, 90 otherwise. -/
def axisAngleDegrees (_center a b : Point3) : ℚ :=
  if a = b then 0 else if a = ⟨-b.x, -b.y, -b.z⟩ then 180 else 90

/-- A player-space flying target restricted to the upper hemisphere, orbit center at the
origin. -/
def upperFlyer : FlyingEntity :=
  { m_name := "flyer", m_orbitCenter := Point3.zero, m_destinationPoints := [⟨0, -1, 2⟩],
    m_upperHemisphereOnly := true }

/-- A scene whose geometry every ray meets at distance 5. -/
def wallAtFive (_origin _direction : Vector3) : Option ℝ := some 5

/-- Draws that aim every direction straight ahead and put the target at distance 3. -/
def straightDraws (_n : Nat) : SpawnDraws :=
  { ray := ⟨0, 0⟩, distance := 3, destination := fun _ => ⟨0, 0⟩ }

/-- A ballistic pose whose horizontal component `(3, 0, 4)` has length 5, in a jump of
height 2. -/
def driftedPose : BallisticPose := { horizontal := ⟨3, 0, 4⟩, jumpOffset := 2 }

/-! ## Theorems: the target state machine -/

namespace TargetEntity

/-- A zero respawn count makes `respawn()` return `false` and hand back the entity as is. -/
theorem respawn_of_zero (t : TargetEntity) (h : t.m_respawnCount = 0) :
    respawn t = (false, t) := by
  simp [respawn, h]

/-- A positive respawn count is decremented, health and spawn time are reset. -/
theorem respawn_of_pos (t : TargetEntity) (h : 0 < t.m_respawnCount) :
    respawn t = (true, { t with m_respawnCount := t.m_respawnCount - 1,
                                m_spawnTime := 0, m_health := 1 }) := by
  have h0 : t.m_respawnCount ≠ 0 := by omega
  simp [respawn, h0, h]

/-- A negative respawn count is kept, health and spawn time are reset. -/
theorem respawn_of_neg (t : TargetEntity) (h : t.m_respawnCount < 0) :
    respawn t = (true, { t with m_spawnTime := 0, m_health := 1 }) := by
  have h0 : t.m_respawnCount ≠ 0 := by omega
  have h1 : ¬ t.m_respawnCount > 0 := by omega
  simp [respawn, h0, h1]

/-- After `k ≤ N` calls from a count of `N`, the count is `N - k`. -/
theorem respawnIter_count_of_pos (N : Nat) :
    ∀ (k : Nat) (t : TargetEntity), t.m_respawnCount = (N : Int) → k ≤ N →
      (respawnIter k t).m_respawnCount = (N : Int) - (k : Int) := by
  induction N with
  | zero =>
    intro k t h hk
    have hk0 : k = 0 := by omega
    subst hk0
    simpa [respawnIter] using h
  | succ n ih =>
    intro k t h hk
    cases k with
    | zero => simpa [respawnIter] using h
    | succ j =>
      have hpos : 0 < t.m_respawnCount := by rw [h]; omega
      have hstep : (respawn t).2.m_respawnCount = (n : Int) := by
        rw [respawn_of_pos t hpos]
        simp [h]
      have := ih j (respawn t).2 hstep (by omega)
      simp only [respawnIter]
      rw [this]
      push_cast
      ring

/-- With a negative count, any number of calls leaves the count where it was. -/
theorem respawnIter_count_of_neg (k : Nat) :
    ∀ t : TargetEntity, t.m_respawnCount < 0 →
      (respawnIter k t).m_respawnCount = t.m_respawnCount := by
  induction k with
  | zero => intro t _; rfl
  | succ j ih =>
    intro t h
    have hstep : (respawn t).2.m_respawnCount = t.m_respawnCount := by
      rw [respawn_of_neg t h]
    simp only [respawnIter]
    rw [ih (respawn t).2 (by rw [hstep]; exact h), hstep]

/-- C1: for every target state and every damage amount, `doDamage` sets the health to
the old health minus the amount, changes no other field, and returns `true` if and only
if the new health is `≤ 0`. -/
theorem C1_doDamage_spec (t : TargetEntity) (amount : ℚ) :
    (doDamage t amount).2 = { t with m_health := t.m_health - amount } ∧
    (doDamage t amount).2.m_health = t.m_health - amount ∧
    ((doDamage t amount).1 = true ↔ (doDamage t amount).2.m_health ≤ 0) := by
  simp [doDamage]

/-- C2: starting from `respawnCount = N > 0`, each of the first `N` consecutive calls
of `respawn()` returns `true` and leaves the count at `N - k` after the `k`-th call, and
call `N + 1` returns `false`. -/
theorem C2_respawn_counts_down (t : TargetEntity) (N : Nat) (_hN : 0 < N)
    (h : t.m_respawnCount = (N : Int)) :
    (∀ k : Nat, 1 ≤ k → k ≤ N →
      respawnResult (k - 1) t = true ∧
      (respawnIter k t).m_respawnCount = (N : Int) - (k : Int) ∧
      (respawnIter k t).m_respawnCount = (respawnIter (k - 1) t).m_respawnCount - 1) ∧
    respawnResult N t = false := by
  refine ⟨?_, ?_⟩
  · intro k hk1 hkN
    have hprev := respawnIter_count_of_pos N (k - 1) t h (by omega)
    have hcur := respawnIter_count_of_pos N k t h hkN
    have hpos : 0 < (respawnIter (k - 1) t).m_respawnCount := by rw [hprev]; omega
    refine ⟨?_, hcur, ?_⟩
    · simp only [respawnResult]
      rw [respawn_of_pos _ hpos]
    · rw [hcur, hprev]; omega
  · have hlast := respawnIter_count_of_pos N N t h (le_refl N)
    simp only [respawnResult]
    rw [respawn_of_zero _ (by rw [hlast]; omega)]

/-- C3: with `respawnCount = 0`, `respawn()` returns `false` and leaves the whole
state, in particular health, spawn time and respawn count, exactly as it was. -/
theorem C3_respawn_zero_noop (t : TargetEntity) (h : t.m_respawnCount = 0) :
    (respawn t).1 = false ∧ (respawn t).2 = t ∧
    (respawn t).2.m_health = t.m_health ∧
    (respawn t).2.m_spawnTime = t.m_spawnTime ∧
    (respawn t).2.m_respawnCount = t.m_respawnCount := by
  rw [respawn_of_zero t h]
  simp

/-- C4: with `respawnCount < 0`, every call in every run of consecutive `respawn()`
calls returns `true`, and the count keeps its original negative value. -/
theorem C4_respawn_negative_forever (t : TargetEntity) (h : t.m_respawnCount < 0) (k : Nat) :
    respawnResult k t = true ∧
    (respawnIter k t).m_respawnCount = t.m_respawnCount ∧
    (respawnIter (k + 1) t).m_respawnCount = t.m_respawnCount := by
  have hk := respawnIter_count_of_neg k t h
  refine ⟨?_, hk, respawnIter_count_of_neg (k + 1) t h⟩
  simp only [respawnResult]
  rw [respawn_of_neg _ (by rw [hk]; exact h)]

/-- C5: whenever `respawn()` returns `true`, the resulting state has health exactly
`1.0` and spawn time exactly `0`, whatever the health was before. -/
theorem C5_respawn_resets (t : TargetEntity) (h : (respawn t).1 = true) :
    (respawn t).2.m_health = 1 ∧ (respawn t).2.m_spawnTime = 0 := by
  unfold respawn at h ⊢
  by_cases h0 : t.m_respawnCount = 0
  · simp [h0] at h
  · simp [h0]

/-- C6: for every target state and every damage `h ≥` current health, `doDamage(h)`
leaves health `≤ 0` and returns `true`. -/
theorem C6_doDamage_lethal (t : TargetEntity) (h : ℚ) (hge : t.m_health ≤ h) :
    (doDamage t h).2.m_health ≤ 0 ∧ (doDamage t h).1 = true := by
  simp [doDamage, hge]


/-- C2 on a target with two respawns: calls one and two return `true` and leave counts
1 and 0, call three returns `false`. -/
theorem C2_respawn_counts_down_witness :
    0 < 2 ∧ twoLives.m_respawnCount = 2 ∧
    respawnResult 0 twoLives = true ∧ (respawnIter 1 twoLives).m_respawnCount = 1 ∧
    respawnResult 1 twoLives = true ∧ (respawnIter 2 twoLives).m_respawnCount = 0 ∧
    respawnResult 2 twoLives = false := by
  have h := C2_respawn_counts_down twoLives 2 (by decide) rfl
  have h1 := h.1 1 (by decide) (by decide)
  have h2 := h.1 2 (by decide) (by decide)
  refine ⟨by decide, rfl, h1.1, ?_, h2.1, ?_, h.2⟩
  · simpa using h1.2.1
  · simpa using h2.2.1

/-- C3 on a destroyed target without respawns: `respawn()` returns `false` and the
target keeps its negative health and its spawn time. -/
theorem C3_respawn_zero_noop_witness :
    spentTarget.m_respawnCount = 0 ∧
    (respawn spentTarget).1 = false ∧ (respawn spentTarget).2 = spentTarget :=
  have h := C3_respawn_zero_noop spentTarget rfl
  ⟨rfl, h.1, h.2.1⟩

/-- C4 on a target with count `-1`: the fourth consecutive `respawn()` still returns
`true` and the count is still `-1` after it. -/
theorem C4_respawn_negative_forever_witness :
    endlessLives.m_respawnCount < 0 ∧
    respawnResult 3 endlessLives = true ∧
    (respawnIter 4 endlessLives).m_respawnCount = endlessLives.m_respawnCount :=
  have hneg : endlessLives.m_respawnCount < 0 := by decide
  have h := C4_respawn_negative_forever endlessLives hneg 3
  ⟨hneg, h.1, h.2.2⟩

/-- C5 end to end: `health = 1.0`, `respawnCount = 1`; `doDamage(1.2)` returns `true`;
`respawn()` returns `true` with health `1.0`, spawn time `0` and count `0`; a second
`respawn()` returns `false`. -/
theorem C5_respawn_resets_witness :
    (doDamage oneLife (6 / 5)).1 = true ∧
    (doDamage oneLife (6 / 5)).2.m_health = -1 / 5 ∧
    (respawn (doDamage oneLife (6 / 5)).2).1 = true ∧
    (respawn (doDamage oneLife (6 / 5)).2).2.m_health = 1 ∧
    (respawn (doDamage oneLife (6 / 5)).2).2.m_spawnTime = 0 ∧
    (respawn (doDamage oneLife (6 / 5)).2).2.m_respawnCount = 0 ∧
    (respawn (respawn (doDamage oneLife (6 / 5)).2).2).1 = false := by
  have hret : (respawn (doDamage oneLife (6 / 5)).2).1 = true := by
    simp [respawn, doDamage, oneLife]
  have h := C5_respawn_resets (doDamage oneLife (6 / 5)).2 hret
  refine ⟨?_, ?_, hret, h.1, h.2, ?_, ?_⟩
  · simp [doDamage, oneLife]; norm_num
  · simp [doDamage, oneLife]; norm_num
  · simp [respawn, doDamage, oneLife]
  · simp [respawn, doDamage, oneLife]

/-- C6 on a full-health target: damage `1.2 ≥ 1.0` leaves health `≤ 0` and returns `true`. -/
theorem C6_doDamage_lethal_witness :
    oneLife.m_health ≤ 6 / 5 ∧
    (doDamage oneLife (6 / 5)).2.m_health ≤ 0 ∧ (doDamage oneLife (6 / 5)).1 = true :=
  have hge : oneLife.m_health ≤ 6 / 5 := by norm_num [oneLife]
  ⟨hge, C6_doDamage_lethal oneLife (6 / 5) hge⟩

end TargetEntity

/-! ## Theorems: the closest-hit scan -/

/-- A successful `intersect` returns the hit distance as the new bound. -/
theorem intersect_true (h c : Option ℚ) (hr : (intersect h c).1 = true) :
    ∃ d, h = some d ∧ (intersect h c).2 = some d := by
  cases h with
  | none => simp [intersect] at hr
  | some d =>
    cases c with
    | none => exact ⟨d, rfl, by simp [intersect]⟩
    | some m =>
      by_cases hlt : d < m
      · exact ⟨d, rfl, by simp [intersect, hlt]⟩
      · simp [intersect, hlt] at hr

/-- A failed `intersect` leaves the bound as it was. -/
theorem intersect_false (h c : Option ℚ) (hr : (intersect h c).1 = false) :
    (intersect h c).2 = c := by
  cases h with
  | none => simp [intersect]
  | some d =>
    cases c with
    | none => simp [intersect] at hr
    | some m =>
      by_cases hlt : d < m
      · simp [intersect, hlt] at hr
      · simp [intersect, hlt]

/-- After `intersect`, the bound is finite and at most the hit distance. -/
theorem intersect_le_hit (d : ℚ) (c : Option ℚ) :
    ∃ m, (intersect (some d) c).2 = some m ∧ m ≤ d := by
  cases c with
  | none => exact ⟨d, by simp [intersect], le_refl d⟩
  | some m0 =>
    by_cases hlt : d < m0
    · exact ⟨d, by simp [intersect, hlt], le_refl d⟩
    · exact ⟨m0, by simp [intersect, hlt], le_of_not_lt hlt⟩

/-- After `intersect`, a finite bound stays finite and does not grow. -/
theorem intersect_le_bound (h : Option ℚ) (m0 : ℚ) :
    ∃ m, (intersect h (some m0)).2 = some m ∧ m ≤ m0 := by
  cases h with
  | none => exact ⟨m0, by simp [intersect], le_refl m0⟩
  | some d =>
    by_cases hlt : d < m0
    · exact ⟨d, by simp [intersect, hlt], le_of_lt hlt⟩
    · exact ⟨m0, by simp [intersect, hlt], le_refl m0⟩

/-- The scan never raises a finite bound. -/
theorem closestScanLoop_le_bound (hit : TargetEntity → Option ℚ) :
    ∀ (l : List TargetEntity) (t : Nat) (m0 : ℚ) (i0 : Int),
      ∃ m, (closestScanLoop hit l t (some m0) i0).1 = some m ∧ m ≤ m0 := by
  intro l
  induction l with
  | nil => intro t m0 i0; exact ⟨m0, rfl, le_refl m0⟩
  | cons x rest ih =>
    intro t m0 i0
    obtain ⟨m1, hm1, hle1⟩ := intersect_le_bound (hit x) m0
    simp only [closestScanLoop]
    rw [hm1]
    obtain ⟨m, hm, hle⟩ := ih (t + 1) m1 (if (intersect (hit x) (some m0)).1 = true then (t : Int) else i0)
    exact ⟨m, hm, le_trans hle hle1⟩

/-- The bound left by the scan is at most the hit distance of every scanned target. -/
theorem closestScanLoop_le_hit (hit : TargetEntity → Option ℚ) :
    ∀ (l : List TargetEntity) (t : Nat) (c0 : Option ℚ) (i0 : Int) (tgt : TargetEntity) (d : ℚ),
      tgt ∈ l → hit tgt = some d →
      ∃ m, (closestScanLoop hit l t c0 i0).1 = some m ∧ m ≤ d := by
  intro l
  induction l with
  | nil => intro t c0 i0 tgt d hmem; simp at hmem
  | cons x rest ih =>
    intro t c0 i0 tgt d hmem hd
    simp only [closestScanLoop]
    rcases List.mem_cons.mp hmem with hx | hrest
    · subst hx
      rw [hd]
      obtain ⟨m1, hm1, hle1⟩ := intersect_le_hit d c0
      rw [hm1]
      obtain ⟨m, hm, hle⟩ := closestScanLoop_le_bound hit rest (t + 1) m1
        (if (intersect (some d) c0).1 = true then (t : Int) else i0)
      exact ⟨m, hm, le_trans hle hle1⟩
    · exact ih (t + 1) _ _ tgt d hrest hd

/-- Either the scan changed nothing, or its index points at a scanned target whose hit
distance is the bound it returns. -/
theorem closestScanLoop_attained (hit : TargetEntity → Option ℚ) :
    ∀ (l : List TargetEntity) (t : Nat) (c0 : Option ℚ) (i0 : Int),
      ((closestScanLoop hit l t c0 i0).2 = i0 ∧ (closestScanLoop hit l t c0 i0).1 = c0) ∨
      (∃ (j : Nat) (tgt : TargetEntity) (d : ℚ), j < l.length ∧
        (closestScanLoop hit l t c0 i0).2 = ((t + j : Nat) : Int) ∧
        l[j]? = some tgt ∧ hit tgt = some d ∧
        (closestScanLoop hit l t c0 i0).1 = some d) := by
  intro l
  induction l with
  | nil => intro t c0 i0; left; exact ⟨rfl, rfl⟩
  | cons x rest ih =>
    intro t c0 i0
    simp only [closestScanLoop]
    rcases ih (t + 1) (intersect (hit x) c0).2
        (if (intersect (hit x) c0).1 = true then (t : Int) else i0) with ⟨hi, hc⟩ | ⟨j, tgt, d, hj, hi, hget, hd, hc⟩
    · by_cases hr : (intersect (hit x) c0).1 = true
      · right
        obtain ⟨d, hd, hc1⟩ := intersect_true _ _ hr
        refine ⟨0, x, d, by simp, ?_, by simp, hd, ?_⟩
        · rw [hi]; simp [hr]
        · rw [hc, hc1]
      · left
        have hr' : (intersect (hit x) c0).1 = false := by simpa using hr
        refine ⟨?_, ?_⟩
        · rw [hi]; simp [hr']
        · rw [hc]; exact intersect_false _ _ hr'
    · right
      refine ⟨j + 1, tgt, d, by simp; omega, ?_, by simpa using hget, hd, hc⟩
      rw [hi]
      congr 1
      omega

/-- What the scan of `App::fire` returns: either index `-1`, an infinite bound and no
target met by the ray, or the index of a target met by the ray at the returned bound,
which is the least hit distance in the array. -/
theorem closestScan_spec (hit : TargetEntity → Option ℚ) (l : List TargetEntity) :
    ((closestScan hit l).2 = -1 ∧ (closestScan hit l).1 = none ∧ ∀ tgt ∈ l, hit tgt = none) ∨
    (∃ (j : Nat) (tgt : TargetEntity) (d : ℚ), j < l.length ∧
      (closestScan hit l).2 = (j : Int) ∧ l[j]? = some tgt ∧ hit tgt = some d ∧
      (closestScan hit l).1 = some d ∧
      ∀ other ∈ l, ∀ e, hit other = some e → d ≤ e) := by
  unfold closestScan finf
  rcases closestScanLoop_attained hit l 0 none (-1) with ⟨hi, hc⟩ | ⟨j, tgt, d, hj, hi, hget, hd, hc⟩
  · left
    refine ⟨hi, hc, ?_⟩
    intro tgt hmem
    cases hh : hit tgt with
    | none => rfl
    | some d =>
      obtain ⟨m, hm, _⟩ := closestScanLoop_le_hit hit l 0 none (-1) tgt d hmem hh
      rw [hc] at hm
      cases hm
  · right
    refine ⟨j, tgt, d, hj, ?_, hget, hd, hc, ?_⟩
    · rw [hi]; simp
    · intro other hmem e he
      obtain ⟨m, hm, hle⟩ := closestScanLoop_le_hit hit l 0 none (-1) other e hmem he
      rw [hc] at hm
      cases hm
      exact hle

/-- The target selected by the scan, spelled out: `none` when the ray meets no target,
otherwise a target of the array met by the ray at the least hit distance. -/
theorem selectedTarget_spec (hit : TargetEntity → Option ℚ) (l : List TargetEntity) :
    (selectedTarget hit l = none ∧ (closestScan hit l).2 = -1 ∧ ∀ tgt ∈ l, hit tgt = none) ∨
    (∃ (j : Nat) (tgt : TargetEntity) (d : ℚ), j < l.length ∧
      (closestScan hit l).2 = (j : Int) ∧ l[j]? = some tgt ∧
      selectedTarget hit l = some tgt ∧ tgt ∈ l ∧ hit tgt = some d ∧
      ∀ other ∈ l, ∀ e, hit other = some e → d ≤ e) := by
  rcases closestScan_spec hit l with ⟨hi, _, hall⟩ | ⟨j, tgt, d, hj, hi, hget, hd, _, hmin⟩
  · left
    refine ⟨?_, hi, hall⟩
    simp [selectedTarget, hi]
  · right
    refine ⟨j, tgt, d, hj, hi, hget, ?_, List.getElem?_mem hget, hd, hmin⟩
    simp [selectedTarget, hi, hget]


/-- The hit distance of the selected target does not depend on the order of the array. -/
theorem selectedTarget_hit_perm (hit : TargetEntity → Option ℚ) (l l2 : List TargetEntity)
    (hp : l.Perm l2) :
    (selectedTarget hit l2).bind hit = (selectedTarget hit l).bind hit := by
  rcases selectedTarget_spec hit l with ⟨hs, _, hall⟩ | ⟨_, tgt, d, _, _, _, hs, hmem, hd, hmin⟩
  · rcases selectedTarget_spec hit l2 with ⟨hs2, _, _⟩ | ⟨_, tgt2, d2, _, _, _, _, hmem2, hd2, _⟩
    · rw [hs, hs2]
    · have := hall tgt2 (hp.mem_iff.mpr hmem2)
      rw [hd2] at this
      cases this
  · rcases selectedTarget_spec hit l2 with ⟨_, _, hall2⟩ | ⟨_, tgt2, d2, _, _, _, hs2, hmem2, hd2, hmin2⟩
    · have := hall2 tgt (hp.mem_iff.mp hmem)
      rw [hd] at this
      cases this
    · rw [hs, hs2]
      simp only [Option.some_bind, hd, hd2]
      have h1 : d ≤ d2 := hmin tgt2 (hp.mem_iff.mpr hmem2) d2 hd2
      have h2 : d2 ≤ d := hmin2 tgt (hp.mem_iff.mp hmem) d hd
      rw [le_antisymm h1 h2]

/-- C7: for every live target list and every ray, the scan of `fire` either finds
nothing (index `-1`) because the ray meets no target, or its index is a target that the
ray hits and whose hit distance is the minimum over all hit targets. That distance is the
same for every reordering of the list, and when no two targets share a hit distance the
selected target itself is the same for every reordering. -/
theorem C7_closest_hit_selection (hit : TargetEntity → Option ℚ)
    (targetArray : List TargetEntity) :
    (((closestScan hit targetArray).2 = -1 ∧ selectedTarget hit targetArray = none ∧
        ∀ tgt ∈ targetArray, hit tgt = none) ∨
      (∃ (j : Nat) (tgt : TargetEntity) (d : ℚ), j < targetArray.length ∧
        (closestScan hit targetArray).2 = (j : Int) ∧ targetArray[j]? = some tgt ∧
        selectedTarget hit targetArray = some tgt ∧ hit tgt = some d ∧
        ∀ other ∈ targetArray, ∀ e, hit other = some e → d ≤ e)) ∧
    (∀ reordered : List TargetEntity, targetArray.Perm reordered →
      (selectedTarget hit reordered).bind hit = (selectedTarget hit targetArray).bind hit ∧
      ((∀ a ∈ targetArray, ∀ b ∈ targetArray, hit a = hit b → hit a ≠ none → a = b) →
        selectedTarget hit reordered = selectedTarget hit targetArray)) := by
  refine ⟨?_, ?_⟩
  · rcases selectedTarget_spec hit targetArray with
      ⟨hs, hi, hall⟩ | ⟨j, tgt, d, hj, hi, hget, hs, _, hd, hmin⟩
    · exact Or.inl ⟨hi, hs, hall⟩
    · exact Or.inr ⟨j, tgt, d, hj, hi, hget, hs, hd, hmin⟩
  · intro reordered hp
    have hbind := selectedTarget_hit_perm hit targetArray reordered hp
    refine ⟨hbind, ?_⟩
    intro hinj
    rcases selectedTarget_spec hit targetArray with
      ⟨hs, _, _⟩ | ⟨_, tgt, d, _, _, _, hs, hmem, hd, _⟩
    · rcases selectedTarget_spec hit reordered with
        ⟨hs2, _, _⟩ | ⟨_, tgt2, d2, _, _, _, hs2, _, hd2, _⟩
      · rw [hs, hs2]
      · rw [hs, hs2] at hbind
        simp [hd2] at hbind
    · rcases selectedTarget_spec hit reordered with
        ⟨hs2, _, _⟩ | ⟨_, tgt2, d2, _, _, _, hs2, hmem2, hd2, _⟩
      · rw [hs, hs2] at hbind
        simp [hd] at hbind
      · rw [hs, hs2] at hbind
        simp only [Option.some_bind] at hbind
        have heq : tgt = tgt2 :=
          hinj tgt hmem tgt2 (hp.mem_iff.mpr hmem2) hbind.symm (by rw [hd]; simp)
        rw [hs, hs2, heq]

/-- C7 on the two-target scene: with targets met at 5.0 and 12.0, the scan selects the
5.0 target whichever of the two comes first in the array. -/
theorem C7_closest_hit_selection_witness :
    [nearTarget, farTarget].Perm [farTarget, nearTarget] ∧
    selectedTarget rayThroughBoth [nearTarget, farTarget] = some nearTarget ∧
    selectedTarget rayThroughBoth [farTarget, nearTarget] = some nearTarget ∧
    (closestScan rayThroughBoth [nearTarget, farTarget]).2 = 0 ∧
    (closestScan rayThroughBoth [farTarget, nearTarget]).2 = 1 := by
  have hp : [nearTarget, farTarget].Perm [farTarget, nearTarget] := List.Perm.swap _ _ _
  have hbase : selectedTarget rayThroughBoth [nearTarget, farTarget] = some nearTarget := rfl
  have hinj : ∀ a ∈ [nearTarget, farTarget], ∀ b ∈ [nearTarget, farTarget],
      rayThroughBoth a = rayThroughBoth b → rayThroughBoth a ≠ none → a = b := by
    intro a ha b hb
    simp only [List.mem_cons, List.mem_singleton, List.not_mem_nil, or_false] at ha hb
    rcases ha with rfl | rfl <;> rcases hb with rfl | rfl <;>
      simp [rayThroughBoth, nearTarget, farTarget]
  have h := ((C7_closest_hit_selection rayThroughBoth [nearTarget, farTarget]).2
    [farTarget, nearTarget] hp).2 hinj
  exact ⟨hp, hbase, h.trans hbase, rfl, rfl⟩


/-! ## Theorems: `fastRemove`, `destroyTarget` and `fire` -/

/-- Overwriting one slot with `x` is, up to order, dropping that slot and adding `x`. -/
theorem set_perm_eraseIdx_concat {α : Type} (x : α) :
    ∀ (l : List α) (j : Nat), j < l.length → (l.set j x).Perm (l.eraseIdx j ++ [x]) := by
  intro l
  induction l with
  | nil => intro j hj; simp at hj
  | cons a rest ih =>
    intro j hj
    cases j with
    | zero =>
      simp only [List.set_cons_zero, List.eraseIdx_cons_zero]
      exact (List.perm_append_singleton x rest).symm
    | succ i =>
      simp only [List.set_cons_succ, List.eraseIdx_cons_succ, List.cons_append]
      exact List.Perm.cons a (ih i (by simpa using hj))

/-- The routine `fastRemove` removes exactly the element at `index`: what is left is a
reordering of the array without that slot. -/
theorem fastRemove_perm {α : Type} (l : List α) (j : Nat) (hj : j < l.length) :
    (fastRemove l j).Perm (l.eraseIdx j) := by
  rcases List.eq_nil_or_concat l with hnil | ⟨init, last, hl⟩
  · subst hnil; simp at hj
  · subst hl
    rw [List.concat_eq_append] at hj ⊢
    have hlast : (init ++ [last]).getLast? = some last := List.getLast?_concat init
    simp only [fastRemove, hlast]
    by_cases hlt : j < init.length
    · rw [List.set_append_left j last hlt, List.dropLast_concat,
        List.eraseIdx_append_of_lt_length hlt]
      exact set_perm_eraseIdx_concat last init j hlt
    · have hje : j = init.length := by
        simp only [List.length_append, List.length_singleton] at hj
        omega
      subst hje
      rw [List.set_append_right _ _ (le_refl _), List.eraseIdx_append_of_length_le (le_refl _)]
      simp

/-- Overwriting the slot that is erased next makes no difference. -/
theorem eraseIdx_set_same {α : Type} (x : α) :
    ∀ (l : List α) (j : Nat), (l.set j x).eraseIdx j = l.eraseIdx j := by
  intro l
  induction l with
  | nil => intro j; simp
  | cons a rest ih =>
    intro j
    cases j with
    | zero => simp
    | succ i => simp [ih i]

/-- The array after `fastRemove` is one element shorter. -/
theorem fastRemove_length {α : Type} (l : List α) (j : Nat) (hj : j < l.length) :
    (fastRemove l j).length + 1 = l.length := by
  have h := (fastRemove_perm l j hj).length_eq
  rw [List.length_eraseIdx_of_lt hj] at h
  omega

/-- The hit branch of `fire`: with hitscan on and the scan ending at index `j`, the
selected target takes `fireDamage`; it is removed and counted when `doDamage` returns
`true`, written back otherwise; the statics record the hit. -/
theorem fire_of_hit (app : App) (hit : TargetEntity → Option ℚ) (clock : FireClock)
    (destroyImmediately : Bool) (j : Nat) (target : TargetEntity)
    (hscan : app.m_hitScan = true)
    (hidx : (closestScan hit app.targetArray).2 = (j : Int))
    (hget : app.targetArray[j]? = some target) :
    app.fire hit clock destroyImmediately =
      if (target.doDamage (fireDamage app.weapon destroyImmediately app.hitTarget
            app.lastTime clock target)).1 = true then
        (some (target.doDamage (fireDamage app.weapon destroyImmediately app.hitTarget
            app.lastTime clock target)).2,
          { app with
            lastTime := clock.atStamp, hitTarget := true,
            targetArray := fastRemove (app.targetArray.set j
              (target.doDamage (fireDamage app.weapon destroyImmediately app.hitTarget
                app.lastTime clock target)).2) j,
            destroyedTargets := app.destroyedTargets + 1 })
      else
        (some (target.doDamage (fireDamage app.weapon destroyImmediately app.hitTarget
            app.lastTime clock target)).2,
          { app with
            lastTime := clock.atStamp, hitTarget := true,
            targetArray := app.targetArray.set j
              (target.doDamage (fireDamage app.weapon destroyImmediately app.hitTarget
                app.lastTime clock target)).2 }) := by
  unfold App.fire
  simp only [hscan, hidx, if_true]
  have hnn : (j : Int) ≥ 0 := Int.ofNat_nonneg j
  simp only [hnn, if_true, Int.toNat_ofNat, hget, App.destroyTarget]

/-- The pointer returned by the hit branch of `fire` is the selected target after
`doDamage(fireDamage)`. -/
theorem fire_of_hit_returns (app : App) (hit : TargetEntity → Option ℚ) (clock : FireClock)
    (destroyImmediately : Bool) (j : Nat) (target : TargetEntity)
    (hscan : app.m_hitScan = true)
    (hidx : (closestScan hit app.targetArray).2 = (j : Int))
    (hget : app.targetArray[j]? = some target) :
    (app.fire hit clock destroyImmediately).1 =
      some (target.doDamage (fireDamage app.weapon destroyImmediately app.hitTarget
        app.lastTime clock target)).2 := by
  rw [fire_of_hit app hit clock destroyImmediately j target hscan hidx hget]
  split <;> rfl

/-- The miss branch of `fire`: with hitscan on and the scan ending at `-1`, no target is
returned and only the `hitTarget` static is reset. -/
theorem fire_of_miss (app : App) (hit : TargetEntity → Option ℚ) (clock : FireClock)
    (destroyImmediately : Bool)
    (hscan : app.m_hitScan = true)
    (hidx : (closestScan hit app.targetArray).2 = -1) :
    app.fire hit clock destroyImmediately = (none, { app with hitTarget := false }) := by
  unfold App.fire
  simp [hscan, hidx]

/-- With hitscan on, `fire` returns a target exactly when the scan selected one, and the
`hitTarget` static afterwards says whether it did. -/
theorem fire_hitTarget_flag (app : App) (hit : TargetEntity → Option ℚ) (clock : FireClock)
    (destroyImmediately : Bool) (hscan : app.m_hitScan = true) :
    ((app.fire hit clock destroyImmediately).1.isSome =
        (selectedTarget hit app.targetArray).isSome) ∧
    ((app.fire hit clock destroyImmediately).2.hitTarget =
        (selectedTarget hit app.targetArray).isSome) ∧
    ((selectedTarget hit app.targetArray).isSome = true →
        (app.fire hit clock destroyImmediately).2.lastTime = clock.atStamp) := by
  rcases selectedTarget_spec hit app.targetArray with
    ⟨hs, hi, _⟩ | ⟨j, tgt, d, _, hi, hget, hs, _, _, _⟩
  · rw [fire_of_miss app hit clock destroyImmediately hscan hi, hs]
    simp
  · rw [fire_of_hit app hit clock destroyImmediately j tgt hscan hi hget, hs]
    split <;> simp


/-! ## Theorems: the damage model of `fire` -/

/-- When the scan selects `target`, its index is a valid slot holding `target`. -/
theorem selectedTarget_some (hit : TargetEntity → Option ℚ) (l : List TargetEntity)
    (target : TargetEntity) (hsel : selectedTarget hit l = some target) :
    ∃ j : Nat, j < l.length ∧ (closestScan hit l).2 = (j : Int) ∧ l[j]? = some target := by
  rcases selectedTarget_spec hit l with
    ⟨hs, _, _⟩ | ⟨j, tgt, d, hj, hi, hget, hs, _, _, _⟩
  · rw [hs] at hsel; cases hsel
  · have htt : tgt = target := Option.some.inj (hs.symm.trans hsel)
    rw [htt] at hget
    exact ⟨j, hj, hi, hget⟩

/-- C8 fails as stated: in laser mode (`firePeriod = 0`, `damagePerSecond = 1/2`) the
evaluation at time 10 hits `near`, the next one at time 11 hits the different target
`far`, and `far` still takes `damagePerSecond × (11 - 10) = 1/2` rather than
`damagePerSecond × firePeriod = 0`. -/
theorem C8_counterexample_other_target :
    laserScene.m_hitScan = true ∧ laserScene.weapon.firePeriod = 0 ∧
    (laserScene.fire rayAtNear ⟨10, 10⟩ false).1 = some nearTarget ∧
    selectedTarget rayAtFar (laserScene.fire rayAtNear ⟨10, 10⟩ false).2.targetArray
      = some farTarget ∧
    nearTarget ≠ farTarget ∧
    fireDamage (laserScene.fire rayAtNear ⟨10, 10⟩ false).2.weapon false
      (laserScene.fire rayAtNear ⟨10, 10⟩ false).2.hitTarget
      (laserScene.fire rayAtNear ⟨10, 10⟩ false).2.lastTime ⟨11, 11⟩ farTarget
      = laserScene.weapon.damagePerSecond * (11 - 10) ∧
    laserScene.weapon.damagePerSecond * (11 - 10)
      ≠ laserScene.weapon.damagePerSecond * laserScene.weapon.firePeriod ∧
    ((laserScene.fire rayAtNear ⟨10, 10⟩ false).2.fire rayAtFar ⟨11, 11⟩ false).1
      = some { farTarget with m_health := 1 / 2 } := by
  have hfirst : laserScene.fire rayAtNear ⟨10, 10⟩ false =
      (some nearTarget, { laserScene with hitTarget := true, lastTime := 10 }) := by
    simp [App.fire, laserScene, closestScan, closestScanLoop, intersect, finf, rayAtNear,
      nearTarget, farTarget, fireDamage, TargetEntity.doDamage]
  rw [hfirst]
  refine ⟨rfl, rfl, rfl, rfl, by decide, ?_, ?_, ?_⟩
  · simp [fireDamage, laserScene]
  · norm_num [laserScene]
  · simp [App.fire, laserScene, closestScan, closestScanLoop, intersect, finf, rayAtFar,
      nearTarget, farTarget, fireDamage, TargetEntity.doDamage]
    norm_num

/-- C8 (amended): in `fire` with hitscan on, `firePeriod == 0` and `destroyImmediately`
false, the selected target takes `damagePerSecond × (time since the previous hit)` exactly
when the immediately preceding hitscan evaluation of `fire` returned some target (the
same one or another), and `damagePerSecond × firePeriod` when it returned none. The two
statics of `fire` are the only state carried from the preceding evaluation. -/
theorem C8_continuous_damage_after_any_hit
    (prev : App) (hitPrev : TargetEntity → Option ℚ) (clockPrev : FireClock)
    (destroyPrev : Bool)
    (app : App) (hit : TargetEntity → Option ℚ) (clock : FireClock) (target : TargetEntity)
    (hprevScan : prev.m_hitScan = true)
    (hflag : app.hitTarget = (prev.fire hitPrev clockPrev destroyPrev).2.hitTarget)
    (htime : app.lastTime = (prev.fire hitPrev clockPrev destroyPrev).2.lastTime)
    (hscan : app.m_hitScan = true)
    (hfp : app.weapon.firePeriod = 0)
    (hsel : selectedTarget hit app.targetArray = some target) :
    (app.fire hit clock false).1 = some { target with m_health := target.m_health -
      (if (prev.fire hitPrev clockPrev destroyPrev).1.isSome = true then
        app.weapon.damagePerSecond * (clock.atDamage - clockPrev.atStamp)
      else
        app.weapon.damagePerSecond * app.weapon.firePeriod) } := by
  obtain ⟨hsome, hflagPrev, htimePrev⟩ :=
    fire_hitTarget_flag prev hitPrev clockPrev destroyPrev hprevScan
  obtain ⟨j, _, hi, hget⟩ := selectedTarget_some hit app.targetArray target hsel
  rw [fire_of_hit_returns app hit clock false j target hscan hi hget]
  have hdmg : fireDamage app.weapon false app.hitTarget app.lastTime clock target =
      (if (prev.fire hitPrev clockPrev destroyPrev).1.isSome = true then
        app.weapon.damagePerSecond * (clock.atDamage - clockPrev.atStamp)
      else
        app.weapon.damagePerSecond * app.weapon.firePeriod) := by
    rw [hsome]
    by_cases hp : (selectedTarget hitPrev prev.targetArray).isSome = true
    · have hl := htimePrev hp
      rw [hp] at hflagPrev
      simp [fireDamage, hfp, hflag, htime, hflagPrev, hl, hp]
    · have hp2 : (selectedTarget hitPrev prev.targetArray).isSome = false := by
        simpa using hp
      rw [hp2] at hflagPrev
      simp [fireDamage, hfp, hflag, hflagPrev, hp2]
  rw [hdmg]
  rfl

/-- C8 (amended) on the laser scene: after the evaluation at time 10 hit `near`, the
evaluation at time 11 damages `far` by `1/2 × (11 - 10)`. -/
theorem C8_continuous_damage_after_any_hit_witness :
    ((laserScene.fire rayAtNear ⟨10, 10⟩ false).2.fire rayAtFar ⟨11, 11⟩ false).1 =
      some { farTarget with m_health := farTarget.m_health -
        (if (laserScene.fire rayAtNear ⟨10, 10⟩ false).1.isSome = true then
          (laserScene.fire rayAtNear ⟨10, 10⟩ false).2.weapon.damagePerSecond * (11 - 10)
        else
          (laserScene.fire rayAtNear ⟨10, 10⟩ false).2.weapon.damagePerSecond *
            (laserScene.fire rayAtNear ⟨10, 10⟩ false).2.weapon.firePeriod) } := by
  have hfirst : (laserScene.fire rayAtNear ⟨10, 10⟩ false).2 =
      { laserScene with hitTarget := true, lastTime := 10 } := by
    simp [App.fire, laserScene, closestScan, closestScanLoop, intersect, finf, rayAtNear,
      nearTarget, farTarget, fireDamage, TargetEntity.doDamage]
    norm_num
  exact C8_continuous_damage_after_any_hit laserScene rayAtNear ⟨10, 10⟩ false
    (laserScene.fire rayAtNear ⟨10, 10⟩ false).2 rayAtFar ⟨11, 11⟩ farTarget
    rfl rfl rfl (by rw [hfirst]; rfl) (by rw [hfirst]; rfl) (by rw [hfirst]; rfl)

/-- C9: in `fire`, for every hit with `destroyImmediately` false and `firePeriod != 0`,
the damage handed to `doDamage` is exactly `damagePerSecond × firePeriod`, whatever the
continuous-hit flag, the time of the previous hit and the clock are. -/
theorem C9_fixed_damage_per_shot (app : App) (hit : TargetEntity → Option ℚ)
    (clock : FireClock) (target : TargetEntity)
    (hscan : app.m_hitScan = true)
    (hfp : app.weapon.firePeriod ≠ 0)
    (hsel : selectedTarget hit app.targetArray = some target) :
    (∀ (flag : Bool) (lastTime : ℚ) (c : FireClock),
      fireDamage app.weapon false flag lastTime c target =
        app.weapon.damagePerSecond * app.weapon.firePeriod) ∧
    (app.fire hit clock false).1 =
      some (target.doDamage (app.weapon.damagePerSecond * app.weapon.firePeriod)).2 ∧
    (∀ (flag : Bool) (lastTime : ℚ) (c : FireClock),
      ({ app with hitTarget := flag, lastTime := lastTime }.fire hit c false).1 =
        (app.fire hit clock false).1) := by
  have hdmg : ∀ (flag : Bool) (lastTime : ℚ) (c : FireClock),
      fireDamage app.weapon false flag lastTime c target =
        app.weapon.damagePerSecond * app.weapon.firePeriod := by
    intro flag lastTime c
    simp [fireDamage, hfp]
  obtain ⟨j, _, hi, hget⟩ := selectedTarget_some hit app.targetArray target hsel
  have hmain : ∀ (a : App), a.m_hitScan = true → a.weapon = app.weapon →
      a.targetArray = app.targetArray → ∀ c : FireClock,
      (a.fire hit c false).1 =
        some (target.doDamage (app.weapon.damagePerSecond * app.weapon.firePeriod)).2 := by
    intro a ha hw hl c
    rw [fire_of_hit_returns a hit c false j target ha (by rw [hl]; exact hi)
      (by rw [hl]; exact hget), hw, hdmg]
  refine ⟨hdmg, hmain app hscan rfl rfl clock, ?_⟩
  intro flag lastTime c
  rw [hmain app hscan rfl rfl clock]
  exact hmain { app with hitTarget := flag, lastTime := lastTime } hscan rfl rfl c

/-- C9 on the rifle scene (`firePeriod = 1/2`, `damagePerSecond = 1`): a shot at `near`
removes exactly `1/2` of its health. -/
theorem C9_fixed_damage_per_shot_witness :
    rifleScene.weapon.firePeriod ≠ 0 ∧
    selectedTarget rayThroughBoth rifleScene.targetArray = some nearTarget ∧
    (rifleScene.fire rayThroughBoth ⟨3, 3⟩ false).1 =
      some (nearTarget.doDamage (rifleScene.weapon.damagePerSecond *
        rifleScene.weapon.firePeriod)).2 :=
  have hfp : rifleScene.weapon.firePeriod ≠ 0 := by norm_num [rifleScene]
  ⟨hfp, rfl,
    (C9_fixed_damage_per_shot rifleScene rayThroughBoth ⟨3, 3⟩ nearTarget rfl hfp rfl).2.1⟩

/-- C10: for every live target array, every ray that hits some target and every weapon
configuration, `fire(true)` in hitscan mode applies damage equal to the selected target's
current health, so `doDamage` returns `true`, the target is returned with health `0`, it
is removed from the array (the rest is kept, one element fewer) and the destroyed-target
counter goes up by one. -/
theorem C10_destroyImmediately_destroys (app : App) (hit : TargetEntity → Option ℚ)
    (clock : FireClock)
    (hscan : app.m_hitScan = true)
    (hhit : ∃ tgt ∈ app.targetArray, hit tgt ≠ none) :
    ∃ (j : Nat) (target : TargetEntity),
      j < app.targetArray.length ∧
      (closestScan hit app.targetArray).2 = (j : Int) ∧
      app.targetArray[j]? = some target ∧
      selectedTarget hit app.targetArray = some target ∧
      fireDamage app.weapon true app.hitTarget app.lastTime clock target = target.health ∧
      (target.doDamage (fireDamage app.weapon true app.hitTarget app.lastTime clock target)).1
        = true ∧
      (app.fire hit clock true).1 = some { target with m_health := 0 } ∧
      (app.fire hit clock true).2.targetArray =
        fastRemove (app.targetArray.set j { target with m_health := 0 }) j ∧
      (app.fire hit clock true).2.targetArray.Perm (app.targetArray.eraseIdx j) ∧
      (app.fire hit clock true).2.targetArray.length + 1 = app.targetArray.length ∧
      (app.fire hit clock true).2.destroyedTargets = app.destroyedTargets + 1 := by
  rcases selectedTarget_spec hit app.targetArray with
    ⟨_, _, hall⟩ | ⟨j, tgt, d, hj, hi, hget, hs, _, _, _⟩
  · obtain ⟨tgt, hmem, hne⟩ := hhit
    exact absurd (hall tgt hmem) hne
  · have hdmg : fireDamage app.weapon true app.hitTarget app.lastTime clock tgt = tgt.health := by
      simp [fireDamage]
    have hres : tgt.doDamage tgt.health = (true, { tgt with m_health := 0 }) := by
      simp [TargetEntity.doDamage, TargetEntity.health]
    have hfire := fire_of_hit app hit clock true j tgt hscan hi hget
    rw [hdmg, hres] at hfire
    simp only [if_true] at hfire
    have hjset : j < (app.targetArray.set j { tgt with m_health := 0 }).length := by
      simpa using hj
    refine ⟨j, tgt, hj, hi, hget, hs, hdmg, ?_, ?_, ?_, ?_, ?_, ?_⟩
    · rw [hdmg, hres]
    · rw [hfire]
    · rw [hfire]
    · rw [hfire]
      have hp := fastRemove_perm _ j hjset
      rw [eraseIdx_set_same] at hp
      exact hp
    · rw [hfire]
      have hl := fastRemove_length _ j hjset
      simpa using hl
    · rw [hfire]

/-- C10 on the rifle scene: `fire(true)` through both targets destroys `near` although
one rifle shot would only halve its health; `far` is what is left in the array. -/
theorem C10_destroyImmediately_destroys_witness :
    rifleScene.m_hitScan = true ∧
    (∃ tgt ∈ rifleScene.targetArray, rayThroughBoth tgt ≠ none) ∧
    (rifleScene.fire rayThroughBoth ⟨3, 3⟩ true).1 = some { nearTarget with m_health := 0 } ∧
    (rifleScene.fire rayThroughBoth ⟨3, 3⟩ true).2.targetArray = [farTarget] ∧
    (rifleScene.fire rayThroughBoth ⟨3, 3⟩ true).2.destroyedTargets = 1 := by
  have hhit : ∃ tgt ∈ rifleScene.targetArray, rayThroughBoth tgt ≠ none :=
    ⟨nearTarget, by simp [rifleScene], by simp [rayThroughBoth, nearTarget]⟩
  obtain ⟨j, target, _, hidx, hget, _, _, _, hret, harr, _, _, hcount⟩ :=
    C10_destroyImmediately_destroys rifleScene rayThroughBoth ⟨3, 3⟩ rfl hhit
  have hj : j = 0 := by
    have h0 : (closestScan rayThroughBoth rifleScene.targetArray).2 = 0 := rfl
    rw [h0] at hidx
    exact_mod_cast hidx.symm
  subst hj
  have htarget : target = nearTarget := by
    have h0 : rifleScene.targetArray[0]? = some nearTarget := rfl
    rw [h0] at hget
    exact (Option.some.inj hget).symm
  subst htarget
  refine ⟨rfl, hhit, hret, ?_, ?_⟩
  · rw [harr]; rfl
  · rw [hcount]; rfl



/-! ## Theorems: sustained hits in continuous mode -/

/-- Overwriting a slot by a target with the same image under `hit` (a hit distance, a
name) leaves the images as they were. -/
theorem map_hit_set {β : Type} (hit : TargetEntity → β) (x y : TargetEntity)
    (hxy : hit x = hit y) :
    ∀ (l : List TargetEntity) (j : Nat), l[j]? = some y → (l.set j x).map hit = l.map hit := by
  intro l
  induction l with
  | nil => intro j h; simp at h
  | cons a rest ih =>
    intro j h
    cases j with
    | zero =>
      simp only [List.getElem?_cons_zero, Option.some.injEq] at h
      simp [h, hxy]
    | succ k =>
      simp only [List.getElem?_cons_succ] at h
      simp [ih k h]

/-- Writing back the element a slot already holds changes nothing. -/
theorem set_same_of_getElem? {α : Type} (y : α) :
    ∀ (l : List α) (j : Nat), l[j]? = some y → l.set j y = l := by
  intro l
  induction l with
  | nil => intro j h; simp at h
  | cons a rest ih =>
    intro j h
    cases j with
    | zero =>
      simp only [List.getElem?_cons_zero, Option.some.injEq] at h
      simp [h]
    | succ k =>
      simp only [List.getElem?_cons_succ] at h
      simp [ih k h]

/-- A slot that holds `y` is in range. -/
theorem lt_length_of_getElem? {α : Type} (l : List α) (j : Nat) (y : α)
    (h : l[j]? = some y) : j < l.length := by
  rcases List.getElem?_eq_some.mp h with ⟨hj, _⟩
  exact hj

/-- One surviving hit: when the damaged target keeps positive health, `fire` writes the
damaged target back in place, stamps the clock, raises the flag and touches nothing else. -/
theorem fire_of_survive (app : App) (hit : TargetEntity → Option ℚ) (clock : FireClock)
    (j : Nat) (target : TargetEntity)
    (hscan : app.m_hitScan = true)
    (hidx : (closestScan hit app.targetArray).2 = (j : Int))
    (hget : app.targetArray[j]? = some target)
    (hlive : 0 < target.m_health -
      fireDamage app.weapon false app.hitTarget app.lastTime clock target) :
    (app.fire hit clock false).2 =
      { app with
        lastTime := clock.atStamp, hitTarget := true,
        targetArray := app.targetArray.set j
          { target with m_health := target.m_health -
              fireDamage app.weapon false app.hitTarget app.lastTime clock target } } := by
  rw [fire_of_hit app hit clock false j target hscan hidx hget]
  have hno : (target.doDamage
      (fireDamage app.weapon false app.hitTarget app.lastTime clock target)).1 = false := by
    simp only [TargetEntity.doDamage, decide_eq_false_iff_not, not_le]
    exact hlive
  rw [hno]
  simp [TargetEntity.doDamage]

/-- C12: for every hitscan `fire` evaluation that hits a target: if `doDamage` returns
`true`, the live target array afterwards is the previous array without the hit slot (one
element fewer, every other target still there exactly once) and the destroyed-target
counter is one higher; if `doDamage` returns `false`, the array keeps every slot (the hit
slot holds the same target with its new health) and the counter is unchanged. -/
theorem C12_fire_outcome (app : App) (hit : TargetEntity → Option ℚ) (clock : FireClock)
    (destroyImmediately : Bool) (j : Nat) (target : TargetEntity)
    (hscan : app.m_hitScan = true)
    (hidx : (closestScan hit app.targetArray).2 = (j : Int))
    (hget : app.targetArray[j]? = some target) :
    ((target.doDamage (fireDamage app.weapon destroyImmediately app.hitTarget app.lastTime
        clock target)).1 = true →
      (app.fire hit clock destroyImmediately).2.targetArray.Perm (app.targetArray.eraseIdx j) ∧
      (app.fire hit clock destroyImmediately).2.targetArray.length + 1
        = app.targetArray.length ∧
      (app.fire hit clock destroyImmediately).2.destroyedTargets = app.destroyedTargets + 1) ∧
    ((target.doDamage (fireDamage app.weapon destroyImmediately app.hitTarget app.lastTime
        clock target)).1 = false →
      (app.fire hit clock destroyImmediately).2.targetArray =
        app.targetArray.set j (target.doDamage (fireDamage app.weapon destroyImmediately
          app.hitTarget app.lastTime clock target)).2 ∧
      (app.fire hit clock destroyImmediately).2.targetArray.length = app.targetArray.length ∧
      (∀ i : Nat, i ≠ j →
        (app.fire hit clock destroyImmediately).2.targetArray[i]? = app.targetArray[i]?) ∧
      (app.fire hit clock destroyImmediately).2.targetArray.map (fun t => t.m_name)
        = app.targetArray.map (fun t => t.m_name) ∧
      (app.fire hit clock destroyImmediately).2.destroyedTargets = app.destroyedTargets) := by
  have hfire := fire_of_hit app hit clock destroyImmediately j target hscan hidx hget
  have hj : j < app.targetArray.length := lt_length_of_getElem? _ _ _ hget
  refine ⟨?_, ?_⟩
  · intro hd
    rw [hd] at hfire
    simp only [if_true] at hfire
    rw [hfire]
    have hjset : j < (app.targetArray.set j (target.doDamage (fireDamage app.weapon
        destroyImmediately app.hitTarget app.lastTime clock target)).2).length := by
      simpa using hj
    refine ⟨?_, ?_, rfl⟩
    · have hp := fastRemove_perm _ j hjset
      rw [eraseIdx_set_same] at hp
      exact hp
    · have hl := fastRemove_length _ j hjset
      simpa using hl
  · intro hd
    rw [hd] at hfire
    simp only [Bool.false_eq_true, if_false] at hfire
    rw [hfire]
    refine ⟨rfl, by simp, ?_, ?_, rfl⟩
    · intro i hij
      exact List.getElem?_set_ne (Ne.symm hij)
    · exact map_hit_set (fun t => t.m_name)
        (target.doDamage (fireDamage app.weapon destroyImmediately app.hitTarget
          app.lastTime clock target)).2 target rfl app.targetArray j hget

/-- C12 on the rifle scene: one shot halves `near` and leaves array and counter alone;
`fire(true)` removes `near`, leaves `far` and counts one destroyed target. -/
theorem C12_fire_outcome_witness :
    (rifleScene.fire rayThroughBoth ⟨3, 3⟩ false).2.targetArray =
      [{ nearTarget with m_health := 1 / 2 }, farTarget] ∧
    (rifleScene.fire rayThroughBoth ⟨3, 3⟩ false).2.destroyedTargets = 0 ∧
    (rifleScene.fire rayThroughBoth ⟨3, 3⟩ true).2.targetArray.Perm [farTarget] ∧
    (rifleScene.fire rayThroughBoth ⟨3, 3⟩ true).2.destroyedTargets = 1 := by
  have hs := C12_fire_outcome rifleScene rayThroughBoth ⟨3, 3⟩ false 0 nearTarget rfl rfl rfl
  have hd := C12_fire_outcome rifleScene rayThroughBoth ⟨3, 3⟩ true 0 nearTarget rfl rfl rfl
  have hfalse : (nearTarget.doDamage (fireDamage rifleScene.weapon false rifleScene.hitTarget
      rifleScene.lastTime ⟨3, 3⟩ nearTarget)).1 = false := by
    simp [TargetEntity.doDamage, fireDamage, rifleScene, nearTarget]
    norm_num
  have htrue : (nearTarget.doDamage (fireDamage rifleScene.weapon true rifleScene.hitTarget
      rifleScene.lastTime ⟨3, 3⟩ nearTarget)).1 = true := by
    simp [TargetEntity.doDamage, fireDamage, TargetEntity.health]
  obtain ⟨harr, _, _, _, hcnt⟩ := hs.2 hfalse
  obtain ⟨hperm, _, hcnt1⟩ := hd.1 htrue
  refine ⟨?_, ?_, ?_, ?_⟩
  · rw [harr]
    simp [TargetEntity.doDamage, fireDamage, rifleScene, nearTarget]
    norm_num
  · rw [hcnt]; rfl
  · exact hperm
  · rw [hcnt1]; rfl

/-- C13: for every live target array and every ray that meets no live target, `fire`
returns no target, and the target array (so the health of every target) and the
destroyed-target counter are unchanged, with hitscan on or off and for both values of
`destroyImmediately`. -/
theorem C13_miss_changes_nothing (app : App) (hit : TargetEntity → Option ℚ)
    (clock : FireClock) (destroyImmediately : Bool)
    (hmiss : ∀ tgt ∈ app.targetArray, hit tgt = none) :
    (app.fire hit clock destroyImmediately).1 = none ∧
    (app.fire hit clock destroyImmediately).2.targetArray = app.targetArray ∧
    (app.fire hit clock destroyImmediately).2.targetArray.map (fun t => t.m_health)
      = app.targetArray.map (fun t => t.m_health) ∧
    (app.fire hit clock destroyImmediately).2.destroyedTargets = app.destroyedTargets := by
  by_cases hscan : app.m_hitScan = true
  · rcases closestScan_spec hit app.targetArray with
      ⟨hi, _, _⟩ | ⟨_, tgt, d, _, _, hget, hd, _, _⟩
    · rw [fire_of_miss app hit clock destroyImmediately hscan hi]
      exact ⟨rfl, rfl, rfl, rfl⟩
    · have := hmiss tgt (List.getElem?_mem hget)
      rw [hd] at this
      cases this
  · have hfire : app.fire hit clock destroyImmediately = (none, app) := by
      unfold App.fire
      simp [hscan]
    rw [hfire]
    exact ⟨rfl, rfl, rfl, rfl⟩

/-- C13 on the laser scene: a ray past both targets returns no target and leaves both
targets and the counter as they were. -/
theorem C13_miss_changes_nothing_witness :
    (∀ tgt ∈ laserScene.targetArray, rayAtNothing tgt = none) ∧
    (laserScene.fire rayAtNothing ⟨3, 3⟩ false).1 = none ∧
    (laserScene.fire rayAtNothing ⟨3, 3⟩ false).2.targetArray = [nearTarget, farTarget] ∧
    (laserScene.fire rayAtNothing ⟨3, 3⟩ false).2.destroyedTargets = 0 :=
  have hmiss : ∀ tgt ∈ laserScene.targetArray, rayAtNothing tgt = none := fun _ _ => rfl
  have h := C13_miss_changes_nothing laserScene rayAtNothing ⟨3, 3⟩ false hmiss
  ⟨hmiss, h.1, h.2.1, h.2.2.2⟩

/-- C14 fails as stated: in the rifle scene (`firePeriod = 1/2`, not continuous mode)
the flag is down before a shot that hits `near` and up after it. -/
theorem C14_counterexample_flag_in_rifle_mode :
    rifleScene.m_hitScan = true ∧ rifleScene.weapon.firePeriod ≠ 0 ∧
    rifleScene.hitTarget = false ∧
    (rifleScene.fire rayThroughBoth ⟨3, 3⟩ false).2.hitTarget = true := by
  refine ⟨rfl, by norm_num [rifleScene], rfl, ?_⟩
  have h := fire_hitTarget_flag rifleScene rayThroughBoth ⟨3, 3⟩ false rfl
  rw [h.2.1]
  rfl

/-- C14 (amended): after every hitscan `fire` evaluation the continuous-hit flag is
`true` if the closest-hit scan found a target, whatever `firePeriod` is, and `false` if
the scan found no target. -/
theorem C14_flag_tracks_last_scan (app : App) (hit : TargetEntity → Option ℚ)
    (clock : FireClock) (destroyImmediately : Bool) (hscan : app.m_hitScan = true) :
    ((selectedTarget hit app.targetArray).isSome = true →
      (app.fire hit clock destroyImmediately).2.hitTarget = true) ∧
    (selectedTarget hit app.targetArray = none →
      (app.fire hit clock destroyImmediately).2.hitTarget = false) ∧
    ((app.fire hit clock destroyImmediately).2.hitTarget = true ↔
      0 ≤ (closestScan hit app.targetArray).2) := by
  have h := (fire_hitTarget_flag app hit clock destroyImmediately hscan).2.1
  refine ⟨?_, ?_, ?_⟩
  · intro hs; rw [h, hs]
  · intro hs; rw [h, hs]; rfl
  · rw [h]
    rcases selectedTarget_spec hit app.targetArray with
      ⟨hs, hi, _⟩ | ⟨j, tgt, d, _, hi, _, hs, _, _, _⟩
    · rw [hs, hi]; simp
    · rw [hs, hi]; simp

/-- C14 (amended) on the rifle and laser scenes: a hit raises the flag in rifle mode, a
miss leaves it down. -/
theorem C14_flag_tracks_last_scan_witness :
    (rifleScene.fire rayThroughBoth ⟨3, 3⟩ false).2.hitTarget = true ∧
    (laserScene.fire rayAtNothing ⟨3, 3⟩ false).2.hitTarget = false :=
  ⟨(C14_flag_tracks_last_scan rifleScene rayThroughBoth ⟨3, 3⟩ false rfl).1 rfl,
   (C14_flag_tracks_last_scan laserScene rayAtNothing ⟨3, 3⟩ false rfl).2.1 rfl⟩

/-- C15 fails as stated: a target with one respawn left, destroyed by `fire(true)`, is
taken out of the live array and is returned with health 0 and its respawn count still 1;
it is neither kept nor revived. -/
theorem C15_counterexample_respawn_ignored :
    oneLife.m_respawnCount ≠ 0 ∧
    (respawnScene.fire rayAtAll ⟨3, 3⟩ true).1 = some { oneLife with m_health := 0 } ∧
    (respawnScene.fire rayAtAll ⟨3, 3⟩ true).2.targetArray = [] ∧
    (respawnScene.fire rayAtAll ⟨3, 3⟩ true).2.destroyedTargets = 1 := by
  have hfire := fire_of_hit respawnScene rayAtAll ⟨3, 3⟩ true 0 oneLife rfl rfl rfl
  have hres : oneLife.doDamage (fireDamage respawnScene.weapon true respawnScene.hitTarget
      respawnScene.lastTime ⟨3, 3⟩ oneLife) = (true, { oneLife with m_health := 0 }) := by
    simp [TargetEntity.doDamage, fireDamage, TargetEntity.health]
  rw [hres] at hfire
  simp only [if_true] at hfire
  rw [hfire]
  refine ⟨by decide, rfl, rfl, rfl⟩

/-- C15 (amended): after `fire` damages a target to health `≤ 0`, the target is removed
from the live array whatever its respawn count is; `fire` does not call `respawn()`, so
the returned target keeps its respawn count and its non-positive health. -/
theorem C15_destroyed_target_always_removed (app : App) (hit : TargetEntity → Option ℚ)
    (clock : FireClock) (destroyImmediately : Bool) (j : Nat) (target : TargetEntity)
    (hscan : app.m_hitScan = true)
    (hidx : (closestScan hit app.targetArray).2 = (j : Int))
    (hget : app.targetArray[j]? = some target)
    (hdead : (target.doDamage (fireDamage app.weapon destroyImmediately app.hitTarget
      app.lastTime clock target)).2.m_health ≤ 0) :
    (app.fire hit clock destroyImmediately).2.targetArray.Perm (app.targetArray.eraseIdx j) ∧
    (app.fire hit clock destroyImmediately).2.targetArray.length + 1
      = app.targetArray.length ∧
    (∃ returned, (app.fire hit clock destroyImmediately).1 = some returned ∧
      returned.m_respawnCount = target.m_respawnCount ∧ returned.m_health ≤ 0) := by
  have hfire := fire_of_hit app hit clock destroyImmediately j target hscan hidx hget
  have hj : j < app.targetArray.length := lt_length_of_getElem? _ _ _ hget
  have hd : (target.doDamage (fireDamage app.weapon destroyImmediately app.hitTarget
      app.lastTime clock target)).1 = true := by
    simp only [TargetEntity.doDamage, decide_eq_true_eq]
    exact hdead
  rw [hd] at hfire
  simp only [if_true] at hfire
  rw [hfire]
  have hjset : j < (app.targetArray.set j (target.doDamage (fireDamage app.weapon
      destroyImmediately app.hitTarget app.lastTime clock target)).2).length := by
    simpa using hj
  refine ⟨?_, ?_, _, rfl, rfl, hdead⟩
  · have hp := fastRemove_perm _ j hjset
    rw [eraseIdx_set_same] at hp
    exact hp
  · have hl := fastRemove_length _ j hjset
    simpa using hl

/-- C15 (amended) on the respawn scene: the target with one respawn left is removed. -/
theorem C15_destroyed_target_always_removed_witness :
    (respawnScene.fire rayAtAll ⟨3, 3⟩ true).2.targetArray.Perm [] ∧
    (respawnScene.fire rayAtAll ⟨3, 3⟩ true).2.targetArray.length + 1 = 1 :=
  have hdead : (oneLife.doDamage (fireDamage respawnScene.weapon true respawnScene.hitTarget
      respawnScene.lastTime ⟨3, 3⟩ oneLife)).2.m_health ≤ 0 := by
    simp [TargetEntity.doDamage, fireDamage, TargetEntity.health]
  have h := C15_destroyed_target_always_removed respawnScene rayAtAll ⟨3, 3⟩ true 0 oneLife
    rfl rfl rfl hdead
  ⟨h.1, h.2.1⟩


/-! ## Theorems: health range, path time, tick update, parsing, jumping respawn -/

/-- One call keeps health at or below 1 when the damage, if any, is not negative. -/
theorem call_health_le_one (t : TargetEntity) (c : TargetCall) (h1 : t.m_health ≤ 1)
    (hpos : ∀ d, c = TargetCall.doDamage d → 0 ≤ d) : (t.call c).m_health ≤ 1 := by
  cases c with
  | doDamage d =>
    have hd := hpos d rfl
    simp only [TargetEntity.call, TargetEntity.doDamage]
    linarith
  | respawn =>
    simp only [TargetEntity.call, TargetEntity.respawn]
    by_cases h0 : t.m_respawnCount = 0
    · simp [h0, h1]
    · simp [h0]

/-- C16 fails as stated: from the initial health 1.0, `doDamage(1.2)` leaves health
`-0.2 < 0`, and `doDamage(-0.5)` leaves health `1.5 > 1`. -/
theorem C16_counterexample_health_leaves_range :
    nearTarget.m_health = 1 ∧
    (TargetEntity.callAll [TargetCall.doDamage (6 / 5)] nearTarget).m_health = -1 / 5 ∧
    ¬ (0 ≤ (TargetEntity.callAll [TargetCall.doDamage (6 / 5)] nearTarget).m_health) ∧
    (TargetEntity.callAll [TargetCall.doDamage (-1 / 2)] nearTarget).m_health = 3 / 2 ∧
    ¬ ((TargetEntity.callAll [TargetCall.doDamage (-1 / 2)] nearTarget).m_health ≤ 1) := by
  refine ⟨rfl, ?_, ?_, ?_, ?_⟩ <;>
    simp [TargetEntity.callAll, TargetEntity.call, TargetEntity.doDamage, nearTarget] <;>
    norm_num

/-- C16 (amended): starting from a health of at most 1 (the initial health is 1.0),
every sequence of `respawn` calls and `doDamage` calls with non-negative damage leaves
`health ≤ 1`; no lower bound is kept, overkill leaves the health negative. -/
theorem C16_health_at_most_one (calls : List TargetCall) :
    ∀ t : TargetEntity, t.m_health ≤ 1 →
      (∀ d, TargetCall.doDamage d ∈ calls → 0 ≤ d) →
      (TargetEntity.callAll calls t).m_health ≤ 1 := by
  induction calls with
  | nil => intro t h1 _; exact h1
  | cons c cs ih =>
    intro t h1 hpos
    simp only [TargetEntity.callAll]
    apply ih
    · exact call_health_le_one t c h1
        (fun d hd => hpos d (by rw [hd]; exact List.mem_cons_self _ _))
    · intro d hd
      exact hpos d (List.mem_cons_of_mem c hd)

/-- C16 (amended) on a run of calls: damage 0.6, respawn, damage 1.2 from the initial
health leaves a health below 1. -/
theorem C16_health_at_most_one_witness :
    oneLife.m_health ≤ 1 ∧
    (TargetEntity.callAll
      [TargetCall.doDamage (3 / 5), TargetCall.respawn, TargetCall.doDamage (6 / 5)]
      oneLife).m_health ≤ 1 :=
  have h1 : oneLife.m_health ≤ 1 := by norm_num [oneLife]
  ⟨h1, C16_health_at_most_one
    [TargetCall.doDamage (3 / 5), TargetCall.respawn, TargetCall.doDamage (6 / 5)] oneLife h1
    (by
      intro d hd
      simp at hd
      rcases hd with rfl | rfl <;> norm_num)⟩

/-- C17: for every non-empty destination list `getPathTime` returns the time of the
last destination; for the empty list it has no value to return (`Array::last()` fails). -/
theorem C17_getPathTime (t : TargetEntity) :
    (t.m_destinations = [] → t.getPathTime = none) ∧
    (∀ (init : List Destination) (last : Destination),
      t.m_destinations = init ++ [last] → t.getPathTime = some last.time) ∧
    (t.m_destinations ≠ [] → ∃ last, t.m_destinations.getLast? = some last ∧
      t.getPathTime = some last.time) := by
  refine ⟨?_, ?_, ?_⟩
  · intro h
    simp [TargetEntity.getPathTime, h]
  · intro init last h
    simp [TargetEntity.getPathTime, h]
  · intro h
    rcases List.eq_nil_or_concat t.m_destinations with hnil | ⟨init, last, hl⟩
    · exact absurd hnil h
    · refine ⟨last, ?_, ?_⟩
      · rw [hl, List.concat_eq_append]; simp
      · simp [TargetEntity.getPathTime, hl]

/-- C17 on concrete targets: a path ending at time 4 has path time 4; a target without
destinations has none. -/
theorem C17_getPathTime_witness :
    pathTarget.getPathTime = some 4 ∧ nearTarget.getPathTime = none :=
  ⟨(C17_getPathTime pathTarget).2.1 [{ position := ⟨0, 0, 0⟩, time := 0 }]
      { position := ⟨1, 2, 3⟩, time := 4 } rfl,
   (C17_getPathTime nearTarget).1 rfl⟩

/-- C18: for every tick of `TargetEntity::onSimulation`: if `deltaTime` is not-a-number
or zero, the previous frame is left as it was; otherwise the previous frame is set to
the frame the target had at the start of the tick, and this is done before
`simulatePose` computes the new pose. `simulatePose` itself does not write the previous
frame. -/
theorem C18_previous_frame_update
    (simulatePose : ℚ → Option ℚ → TargetEntity → TargetEntity)
    (t : TargetEntity) (absoluteTime : ℚ) (deltaTime : Option ℚ)
    (hpose : ∀ (a : ℚ) (d : Option ℚ) (e : TargetEntity),
      (simulatePose a d e).m_previousFrame = e.m_previousFrame) :
    ((deltaTime = none ∨ deltaTime = some 0) →
      (t.onSimulation simulatePose absoluteTime deltaTime).m_previousFrame
        = t.m_previousFrame ∧
      t.onSimulation simulatePose absoluteTime deltaTime
        = simulatePose absoluteTime deltaTime t) ∧
    (¬ (deltaTime = none ∨ deltaTime = some 0) →
      (t.onSimulation simulatePose absoluteTime deltaTime).m_previousFrame = t.m_frame ∧
      t.onSimulation simulatePose absoluteTime deltaTime
        = simulatePose absoluteTime deltaTime { t with m_previousFrame := t.m_frame }) := by
  have hnan : (isNaN deltaTime = true) ↔ deltaTime = none := by
    cases deltaTime <;> simp [isNaN]
  refine ⟨?_, ?_⟩
  · intro h
    have hc : isNaN deltaTime = true ∨ deltaTime = some 0 := h.imp hnan.mpr id
    have hrun : t.onSimulation simulatePose absoluteTime deltaTime
        = simulatePose absoluteTime deltaTime t := by
      simp only [TargetEntity.onSimulation, hc, not_true_eq_false, if_false]
    exact ⟨by rw [hrun, hpose], hrun⟩
  · intro h
    have hc : ¬ (isNaN deltaTime = true ∨ deltaTime = some 0) :=
      fun h2 => h (h2.imp hnan.mp id)
    have hrun : t.onSimulation simulatePose absoluteTime deltaTime
        = simulatePose absoluteTime deltaTime { t with m_previousFrame := t.m_frame } := by
      simp only [TargetEntity.onSimulation, hc, not_false_eq_true, if_true]
    exact ⟨by rw [hrun, hpose], hrun⟩

/-- C18 on a moved target whose pose update slides it along x: a tick of 1/60 s caches
the start frame (translation (1,2,3)) although the new frame is at (2,2,3); a zero or
not-a-number tick keeps the old previous frame. -/
theorem C18_previous_frame_update_witness :
    (movedTarget.onSimulation slidePose 5 (some (1 / 60))).m_previousFrame
      = movedTarget.m_frame ∧
    (movedTarget.onSimulation slidePose 5 (some (1 / 60))).m_frame.translation = ⟨2, 2, 3⟩ ∧
    (movedTarget.onSimulation slidePose 5 (some 0)).m_previousFrame = CFrame.identity ∧
    (movedTarget.onSimulation slidePose 5 none).m_previousFrame = CFrame.identity := by
  have hpose : ∀ (a : ℚ) (d : Option ℚ) (e : TargetEntity),
      (slidePose a d e).m_previousFrame = e.m_previousFrame := fun _ _ _ => rfl
  have hvalid : ¬ (some (1 / 60 : ℚ) = none ∨ some (1 / 60 : ℚ) = some 0) := by
    simp
  have h1 := (C18_previous_frame_update slidePose movedTarget 5 (some (1 / 60)) hpose).2 hvalid
  have h2 := (C18_previous_frame_update slidePose movedTarget 5 (some 0) hpose).1 (Or.inr rfl)
  have h3 := (C18_previous_frame_update slidePose movedTarget 5 none hpose).1 (Or.inl rfl)
  refine ⟨h1.1, ?_, h2.1, h3.1⟩
  rw [h1.2]
  simp [slidePose, movedTarget]
  norm_num

/-- C19: for every `Destination` record whose `settingsVersion` is present and
different from 1, parsing succeeds without reading `t` or `xyz`: the result has position
`(0,0,0)` and time `0` whatever the record holds. With `settingsVersion` absent or 1,
position and time are the record's `xyz` and `t` (and parsing fails when one is absent). -/
theorem C19_destination_version_gate (any : DestinationAny) :
    (∀ v : Int, any.settingsVersion = some v → v ≠ 1 →
      Destination.ofAny any = some { position := Point3.zero, time := 0 }) ∧
    ((any.settingsVersion = none ∨ any.settingsVersion = some 1) →
      (∀ (time : ℚ) (position : Point3), any.t = some time → any.xyz = some position →
        Destination.ofAny any = some { position := position, time := time }) ∧
      (any.t = none ∨ any.xyz = none → Destination.ofAny any = none)) := by
  refine ⟨?_, ?_⟩
  · intro v hv hne
    simp [Destination.ofAny, hv, hne]
  · intro hver
    have h1 : any.settingsVersion.getD 1 = 1 := by
      rcases hver with h | h <;> simp [h]
    refine ⟨?_, ?_⟩
    · intro time position ht hx
      simp [Destination.ofAny, h1, ht, hx]
    · intro hmiss
      rcases hmiss with h | h
      · simp [Destination.ofAny, h1, h]
      · cases ht : any.t <;> simp [Destination.ofAny, h1, h, ht]

/-- C19 on concrete records: a version-2 record with `t = 4`, `xyz = (1,2,3)` parses to
the default destination; the same record without a version parses to its own values. -/
theorem C19_destination_version_gate_witness :
    Destination.ofAny versionTwoRecord = some { position := Point3.zero, time := 0 } ∧
    Destination.ofAny plainRecord = some { position := ⟨1, 2, 3⟩, time := 4 } :=
  ⟨(C19_destination_version_gate versionTwoRecord).1 2 rfl (by decide),
   ((C19_destination_version_gate plainRecord).2 (Or.inl rfl)).1 4 ⟨1, 2, 3⟩ rfl rfl⟩

/-- C20 on the code: `JumpingEntity::respawn()` has the effect of the base `respawn()`
on health, spawn time and respawn count, but returns no defined boolean and always sets
`m_isFirstFrame`; for a jumping target with `respawnCount = 0` past its first frame the
base call returns `false` and is a no-op, while the jumping call returns nothing and
changes the target. -/
theorem C20_jumping_respawn_drops_result :
    (∀ j : JumpingEntity,
      j.respawn.1 = none ∧
      j.respawn.2.toTargetEntity = j.toTargetEntity.respawn.2 ∧
      j.respawn.2.m_isFirstFrame = true) ∧
    spentJumper.m_respawnCount = 0 ∧
    spentJumper.toTargetEntity.respawn = (false, spentJumper.toTargetEntity) ∧
    spentJumper.respawn.1 ≠ some spentJumper.toTargetEntity.respawn.1 ∧
    spentJumper.respawn.2 ≠ spentJumper := by
  refine ⟨fun j => ⟨rfl, rfl, rfl⟩, rfl, rfl, ?_, ?_⟩
  · simp [JumpingEntity.respawn]
  · intro h
    have hf := congrArg JumpingEntity.m_isFirstFrame h
    simp [JumpingEntity.respawn, spentJumper] at hf



/-! ## Theorems: material index, first laser hit, logged action -/

/-- Truncation toward zero of a non-negative value is non-negative. -/
theorem truncate_nonneg (x : ℚ) (h : 0 ≤ x) : 0 ≤ truncate x := by
  simp only [truncate, h, if_true]
  exact Int.floor_nonneg.mpr h

/-- The 32-bit conversion of a non-negative value below `2^31` is its truncation, and is
non-negative. -/
theorem truncToInt_nonneg (x : ℚ) (h : 0 ≤ x) (hfit : x < 2147483648) :
    0 ≤ truncToInt x := by
  have h0 : 0 ≤ truncate x := truncate_nonneg x h
  have h1 : truncate x ≤ 2147483647 := by
    have hlt : truncate x < 2147483648 := by
      simp only [truncate, h, if_true]
      exact Int.floor_lt.mpr (by exact_mod_cast hfit)
    omega
  have hrange : -2147483648 ≤ truncate x ∧ truncate x ≤ 2147483647 := ⟨by omega, h1⟩
  simp only [truncToInt, hrange, and_self, if_true]
  exact h0

/-- The material index is in range for a non-negative health and a table of at least
one entry, when `health × m_MatTableSize` is below `2^31`. -/
theorem materialIndex_valid (size : Int) (health : ℚ) (hsize : 1 ≤ size) (hh : 0 ≤ health)
    (hfit : health * (size : ℚ) < 2147483648) :
    0 ≤ materialIndex size health ∧ materialIndex size health ≤ size - 1 ∧
    (materialIndex size health).toNat < size.toNat := by
  have hs : (0 : ℚ) ≤ (size : ℚ) := by
    have : (0 : Int) ≤ size := by omega
    exact_mod_cast this
  have ht : 0 ≤ truncToInt (health * (size : ℚ)) :=
    truncToInt_nonneg _ (mul_nonneg hh hs) hfit
  have h0 : 0 ≤ materialIndex size health := by
    unfold materialIndex
    exact le_min ht (by omega)
  have h1 : materialIndex size health ≤ size - 1 := by
    unfold materialIndex
    exact min_le_right _ _
  refine ⟨h0, h1, ?_⟩
  omega

/-- When `health × m_MatTableSize` reaches `2^31` the cast leaves the range of `int` and
the index is `-2^31`. -/
theorem materialIndex_overflow (size : Int) (health : ℚ) (hsize : 1 ≤ size)
    (hbig : 2147483648 ≤ health * (size : ℚ)) :
    materialIndex size health = -2147483648 := by
  have h0 : 0 ≤ health * (size : ℚ) := le_trans (by norm_num) hbig
  have hfl : (2147483648 : Int) ≤ ⌊health * (size : ℚ)⌋ :=
    Int.le_floor.mpr (by exact_mod_cast hbig)
  have hnot : ¬ (-2147483648 ≤ truncate (health * (size : ℚ)) ∧
      truncate (health * (size : ℚ)) ≤ 2147483647) := by
    simp only [truncate, h0, if_true]
    omega
  simp only [materialIndex, truncToInt, hnot, if_false]
  exact min_eq_left (by omega)

/-- A health of at most 1 times an `int` table size is below `2^31`. -/
theorem health_times_size_fits (size : Int) (health : ℚ) (hsize : 1 ≤ size)
    (hint : size ≤ 2147483647) (h1 : health ≤ 1) :
    health * (size : ℚ) < 2147483648 := by
  have hs : (1 : ℚ) ≤ (size : ℚ) := by exact_mod_cast hsize
  have hs2 : (size : ℚ) ≤ 2147483647 := by exact_mod_cast hint
  nlinarith

/-- What `fire` returns when it returns a target: hitscan is on, the scan selected a slot
`j` holding `target`, and the returned pointer is `target` after `doDamage(fireDamage)`. -/
theorem fire_returns_some (app : App) (hit : TargetEntity → Option ℚ) (clock : FireClock)
    (destroyImmediately : Bool) (returned : TargetEntity)
    (hret : (app.fire hit clock destroyImmediately).1 = some returned) :
    app.m_hitScan = true ∧
    ∃ (j : Nat) (target : TargetEntity),
      (closestScan hit app.targetArray).2 = (j : Int) ∧
      app.targetArray[j]? = some target ∧
      returned = (target.doDamage (fireDamage app.weapon destroyImmediately app.hitTarget
        app.lastTime clock target)).2 := by
  by_cases hscan : app.m_hitScan = true
  · refine ⟨hscan, ?_⟩
    rcases selectedTarget_spec hit app.targetArray with
      ⟨_, hi, _⟩ | ⟨j, tgt, d, _, hi, hget, _, _, _, _⟩
    · rw [fire_of_miss app hit clock destroyImmediately hscan hi] at hret
      cases hret
    · rw [fire_of_hit_returns app hit clock destroyImmediately j tgt hscan hi hget] at hret
      exact ⟨j, tgt, hi, hget, (Option.some.inj hret).symm⟩
  · have hfire : app.fire hit clock destroyImmediately = (none, app) := by
      unfold App.fire
      simp [hscan]
    rw [hfire] at hret
    cases hret

/-- Zero damage leaves the target as it is. -/
theorem doDamage_zero (target : TargetEntity) : (target.doDamage 0).2 = target := by
  cases target
  simp [TargetEntity.doDamage]

/-- C24 fails as stated: a shot of the overheal rifle (damage `-299999999`) leaves `near`
alive at health 300000000; with a table of 10 materials the product 3000000000 is outside
the range of `int`, the cast yields `-2147483648`, and the index
`min(-2147483648, 9) = -2147483648` is not a valid index. -/
theorem C24_counterexample_cast_overflow :
    (nearTarget.doDamage (fireDamage overhealScene.weapon false overhealScene.hitTarget
      overhealScene.lastTime ⟨3, 3⟩ nearTarget)).1 = false ∧
    (overhealScene.fire rayAtNear ⟨3, 3⟩ false).1
      = some { nearTarget with m_health := 300000000 } ∧
    materialIndex 10 ({ nearTarget with m_health := 300000000 } : TargetEntity).health
      = -2147483648 ∧
    ¬ (0 ≤ materialIndex 10 ({ nearTarget with m_health := 300000000 } : TargetEntity).health) := by
  have hval : (nearTarget.doDamage (fireDamage overhealScene.weapon false
      overhealScene.hitTarget overhealScene.lastTime ⟨3, 3⟩ nearTarget))
      = (false, { nearTarget with m_health := 300000000 }) := by
    simp [TargetEntity.doDamage, fireDamage, overhealScene, nearTarget]
    norm_num
  have hidx : materialIndex 10 ({ nearTarget with m_health := 300000000 } : TargetEntity).health
      = -2147483648 := by
    simp only [materialIndex, truncToInt, truncate, TargetEntity.health]
    norm_num
  refine ⟨by rw [hval], ?_, hidx, ?_⟩
  · rw [fire_of_hit_returns overhealScene rayAtNear ⟨3, 3⟩ false 0 nearTarget rfl rfl rfl, hval]
  · rw [hidx]
    decide

/-- C24, amended: whenever `fire` hits a target that survives (`doDamage` returns
`false`), the material table index `min((int)(health × m_MatTableSize), m_MatTableSize - 1)`
computed from the updated health lies in `[0, m_MatTableSize - 1]`, for every
`m_MatTableSize ≥ 1` and every damage amount that leaves `health × m_MatTableSize` below
`2^31`, the range of the `int` cast; this is the case for every non-negative damage dealt
to a target of health at most 1. The bound is sharp: from `2^31` on the index is `-2^31`. -/
theorem C24_material_index_valid (size : Int) (hsize : 1 ≤ size) :
    (∀ (target : TargetEntity) (damage : ℚ), (target.doDamage damage).1 = false →
      (target.doDamage damage).2.health * (size : ℚ) < 2147483648 →
      0 ≤ materialIndex size (target.doDamage damage).2.health ∧
      materialIndex size (target.doDamage damage).2.health ≤ size - 1 ∧
      (materialIndex size (target.doDamage damage).2.health).toNat < size.toNat) ∧
    (∀ (target : TargetEntity) (damage : ℚ),
      2147483648 ≤ (target.doDamage damage).2.health * (size : ℚ) →
      materialIndex size (target.doDamage damage).2.health = -2147483648) ∧
    (∀ (target : TargetEntity) (damage : ℚ), size ≤ 2147483647 → target.health ≤ 1 →
      0 ≤ damage → (target.doDamage damage).1 = false →
      0 ≤ materialIndex size (target.doDamage damage).2.health ∧
      materialIndex size (target.doDamage damage).2.health ≤ size - 1 ∧
      (materialIndex size (target.doDamage damage).2.health).toNat < size.toNat) ∧
    (∀ (app : App) (hit : TargetEntity → Option ℚ) (clock : FireClock)
      (destroyImmediately : Bool) (j : Nat) (target : TargetEntity),
      app.m_hitScan = true →
      (closestScan hit app.targetArray).2 = (j : Int) →
      app.targetArray[j]? = some target →
      (target.doDamage (fireDamage app.weapon destroyImmediately app.hitTarget app.lastTime
        clock target)).1 = false →
      (target.doDamage (fireDamage app.weapon destroyImmediately app.hitTarget app.lastTime
        clock target)).2.health * (size : ℚ) < 2147483648 →
      ∃ updated : TargetEntity,
        (app.fire hit clock destroyImmediately).1 = some updated ∧
        (app.fire hit clock destroyImmediately).2.targetArray[j]? = some updated ∧
        0 ≤ materialIndex size updated.health ∧
        materialIndex size updated.health ≤ size - 1 ∧
        (materialIndex size updated.health).toNat < size.toNat) := by
  have hgen : ∀ (target : TargetEntity) (damage : ℚ), (target.doDamage damage).1 = false →
      (target.doDamage damage).2.health * (size : ℚ) < 2147483648 →
      0 ≤ materialIndex size (target.doDamage damage).2.health ∧
      materialIndex size (target.doDamage damage).2.health ≤ size - 1 ∧
      (materialIndex size (target.doDamage damage).2.health).toNat < size.toNat := by
    intro target damage hs hfit
    have hpos : 0 < (target.doDamage damage).2.m_health := by
      simp only [TargetEntity.doDamage, decide_eq_false_iff_not, not_le] at hs ⊢
      exact hs
    exact materialIndex_valid size _ hsize (le_of_lt hpos) hfit
  refine ⟨hgen, fun target damage hbig => materialIndex_overflow size _ hsize hbig, ?_, ?_⟩
  · intro target damage hint h1 hd hs
    refine hgen target damage hs (health_times_size_fits size _ hsize hint ?_)
    simp only [TargetEntity.doDamage, TargetEntity.health] at h1 ⊢
    linarith
  · intro app hit clock destroyImmediately j target hscan hi hget hd hfit
    have hj : j < app.targetArray.length := lt_length_of_getElem? _ _ _ hget
    have hfire := fire_of_hit app hit clock destroyImmediately j target hscan hi hget
    rw [hd] at hfire
    simp only [Bool.false_eq_true, if_false] at hfire
    refine ⟨(target.doDamage (fireDamage app.weapon destroyImmediately app.hitTarget
      app.lastTime clock target)).2, ?_, ?_, hgen target _ hd hfit⟩
    · rw [hfire]
    · rw [hfire]
      show (app.targetArray.set j _)[j]? = _
      simp [hj]

/-- C24 on the rifle scene with a table of 10 materials: the shot leaves `near` at
health 1/2 and the index is 5, inside `[0, 9]`. -/
theorem C24_material_index_valid_witness :
    (rifleScene.fire rayThroughBoth ⟨3, 3⟩ false).1 = some { nearTarget with m_health := 1 / 2 } ∧
    0 ≤ materialIndex 10 ({ nearTarget with m_health := 1 / 2 } : TargetEntity).health ∧
    materialIndex 10 ({ nearTarget with m_health := 1 / 2 } : TargetEntity).health ≤ 10 - 1 := by
  have hval : (nearTarget.doDamage (fireDamage rifleScene.weapon false rifleScene.hitTarget
      rifleScene.lastTime ⟨3, 3⟩ nearTarget)) = (false, { nearTarget with m_health := 1 / 2 }) := by
    simp [TargetEntity.doDamage, fireDamage, rifleScene, nearTarget]
    norm_num
  obtain ⟨updated, hret, _, h0, h1, _⟩ := (C24_material_index_valid 10 (by decide)).2.2.2
    rifleScene rayThroughBoth ⟨3, 3⟩ false 0 nearTarget rfl rfl rfl (by rw [hval])
    (by rw [hval]; simp [TargetEntity.health]; norm_num)
  have hup : updated = { nearTarget with m_health := 1 / 2 } := by
    rw [fire_of_hit_returns rifleScene rayThroughBoth ⟨3, 3⟩ false 0 nearTarget rfl rfl rfl,
      hval] at hret
    exact (Option.some.inj hret).symm
  rw [hup] at hret h0 h1
  exact ⟨hret, h0, h1⟩

/-- C27: in continuous mode (`firePeriod == 0`, `destroyImmediately` false), a hitscan
`fire` evaluation that hits a target while the flag is down, which is the case on the
first evaluation and after an evaluation that found no target, applies exactly zero
damage: the target is returned unchanged and, if its health was `> 0`, the live array and
the counter are unchanged, so it is not destroyed. -/
theorem C27_first_laser_hit_is_free (app : App) (hit : TargetEntity → Option ℚ)
    (clock : FireClock) (j : Nat) (target : TargetEntity)
    (hscan : app.m_hitScan = true)
    (hfp : app.weapon.firePeriod = 0)
    (hidx : (closestScan hit app.targetArray).2 = (j : Int))
    (hget : app.targetArray[j]? = some target)
    (hstart : app.hitTarget = false ∨
      ∃ (prev : App) (hitPrev : TargetEntity → Option ℚ) (clockPrev : FireClock)
        (destroyPrev : Bool),
        prev.m_hitScan = true ∧ selectedTarget hitPrev prev.targetArray = none ∧
        app.hitTarget = (prev.fire hitPrev clockPrev destroyPrev).2.hitTarget) :
    fireDamage app.weapon false app.hitTarget app.lastTime clock target = 0 ∧
    (app.fire hit clock false).1 = some target ∧
    (0 < target.m_health →
      (app.fire hit clock false).2.targetArray = app.targetArray ∧
      (app.fire hit clock false).2.destroyedTargets = app.destroyedTargets) := by
  have hflag : app.hitTarget = false := by
    rcases hstart with h | ⟨prev, hitPrev, clockPrev, destroyPrev, hp, hmiss, hlink⟩
    · exact h
    · have h := (fire_hitTarget_flag prev hitPrev clockPrev destroyPrev hp).2.1
      rw [hlink, h, hmiss]
      rfl
  have hdmg : fireDamage app.weapon false app.hitTarget app.lastTime clock target = 0 := by
    simp [fireDamage, hfp, hflag]
  refine ⟨hdmg, ?_, ?_⟩
  · rw [fire_of_hit_returns app hit clock false j target hscan hidx hget, hdmg,
      doDamage_zero]
  · intro hpos
    have hlive : 0 < target.m_health -
        fireDamage app.weapon false app.hitTarget app.lastTime clock target := by
      rw [hdmg]; simpa using hpos
    have hstep := fire_of_survive app hit clock j target hscan hidx hget hlive
    rw [hstep, hdmg]
    have hsame : ({ target with m_health := target.m_health - 0 } : TargetEntity) = target := by
      cases target
      simp
    refine ⟨?_, rfl⟩
    show app.targetArray.set j _ = app.targetArray
    rw [hsame]
    exact set_same_of_getElem? target app.targetArray j hget

/-- C27 on the laser scene: the first evaluation, and an evaluation after a miss, hit
`near` and leave both targets at full health. -/
theorem C27_first_laser_hit_is_free_witness :
    (laserScene.fire rayAtNear ⟨10, 10⟩ false).1 = some nearTarget ∧
    (laserScene.fire rayAtNear ⟨10, 10⟩ false).2.targetArray = [nearTarget, farTarget] ∧
    ((laserScene.fire rayAtNothing ⟨9, 9⟩ false).2.fire rayAtNear ⟨10, 10⟩ false).1
      = some nearTarget := by
  have h1 := C27_first_laser_hit_is_free laserScene rayAtNear ⟨10, 10⟩ 0 nearTarget
    rfl rfl rfl rfl (Or.inl rfl)
  have hmiss : laserScene.fire rayAtNothing ⟨9, 9⟩ false
      = (none, { laserScene with hitTarget := false }) :=
    fire_of_miss laserScene rayAtNothing ⟨9, 9⟩ false rfl rfl
  have h2 := C27_first_laser_hit_is_free (laserScene.fire rayAtNothing ⟨9, 9⟩ false).2
    rayAtNear ⟨10, 10⟩ 0 nearTarget
    (by rw [hmiss]; rfl) (by rw [hmiss]; rfl) (by rw [hmiss]; rfl) (by rw [hmiss]; rfl)
    (Or.inr ⟨laserScene, rayAtNothing, ⟨9, 9⟩, false, rfl, rfl, rfl⟩)
  exact ⟨h1.2.1, (h1.2.2 (by norm_num [nearTarget])).1, h2.2.1⟩

/-- C28: for every `fire` evaluation that returns a target, the returned target's health
is `≤ 0` if and only if `fire` removed it from the live array (the array is then the old
one without the selected slot); otherwise the selected slot still holds it. Hence the
action logged from the returned pointer is `destroy` exactly for removed targets and `hit`
exactly for targets still in the array. -/
theorem C28_logged_action_matches_removal (app : App) (hit : TargetEntity → Option ℚ)
    (clock : FireClock) (destroyImmediately : Bool) (returned : TargetEntity)
    (hret : (app.fire hit clock destroyImmediately).1 = some returned) :
    ∃ j : Nat, (closestScan hit app.targetArray).2 = (j : Int) ∧ j < app.targetArray.length ∧
      (returned.m_health ≤ 0 →
        (app.fire hit clock destroyImmediately).2.targetArray.Perm
          (app.targetArray.eraseIdx j) ∧
        fireAction (app.fire hit clock destroyImmediately).1 = PlayerAction.destroy) ∧
      (¬ returned.m_health ≤ 0 →
        (app.fire hit clock destroyImmediately).2.targetArray = app.targetArray.set j returned ∧
        (app.fire hit clock destroyImmediately).2.targetArray[j]? = some returned ∧
        fireAction (app.fire hit clock destroyImmediately).1 = PlayerAction.hit) ∧
      (returned.m_health ≤ 0 ↔
        (app.fire hit clock destroyImmediately).2.targetArray.length + 1
          = app.targetArray.length) ∧
      (fireAction (app.fire hit clock destroyImmediately).1 = PlayerAction.destroy ↔
        (app.fire hit clock destroyImmediately).2.targetArray.length + 1
          = app.targetArray.length) ∧
      (fireAction (app.fire hit clock destroyImmediately).1 = PlayerAction.hit ↔
        (app.fire hit clock destroyImmediately).2.targetArray.length
          = app.targetArray.length) := by
  obtain ⟨hscan, j, target, hi, hget, hr⟩ :=
    fire_returns_some app hit clock destroyImmediately returned hret
  have hj : j < app.targetArray.length := lt_length_of_getElem? _ _ _ hget
  have hfire := fire_of_hit app hit clock destroyImmediately j target hscan hi hget
  rw [← hr] at hfire
  have hflag : (target.doDamage (fireDamage app.weapon destroyImmediately app.hitTarget
      app.lastTime clock target)).1 = decide (returned.m_health ≤ 0) := by
    rw [hr]; rfl
  rw [hflag] at hfire
  have hjset : j < (app.targetArray.set j returned).length := by simpa using hj
  have hact : fireAction (some returned) =
      if returned.m_health ≤ 0 then PlayerAction.destroy else PlayerAction.hit := rfl
  by_cases hdead : returned.m_health ≤ 0
  · simp only [hdead, decide_True, if_true] at hfire
    rw [hfire]
    have hlen := fastRemove_length _ j hjset
    rw [List.length_set] at hlen
    refine ⟨j, hi, hj, ?_, ?_, ?_, ?_, ?_⟩
    · intro _
      refine ⟨?_, by rw [hact]; simp [hdead]⟩
      have hp := fastRemove_perm _ j hjset
      rw [eraseIdx_set_same] at hp
      exact hp
    · intro h; exact absurd hdead h
    · exact ⟨fun _ => hlen, fun _ => hdead⟩
    · exact ⟨fun _ => hlen, fun _ => by rw [hact]; simp [hdead]⟩
    · constructor
      · intro h
        rw [hact] at h
        simp [hdead] at h
      · intro h
        show fireAction (some returned) = PlayerAction.hit
        have hlen2 : (fastRemove (app.targetArray.set j returned) j).length
            = app.targetArray.length := h
        omega
  · simp only [hdead, decide_False, Bool.false_eq_true, if_false] at hfire
    rw [hfire]
    refine ⟨j, hi, hj, ?_, ?_, ?_, ?_, ?_⟩
    · intro h; exact absurd h hdead
    · intro _
      refine ⟨rfl, ?_, by rw [hact]; simp [hdead]⟩
      show (app.targetArray.set j returned)[j]? = some returned
      simp [hj]
    · constructor
      · intro h; exact absurd h hdead
      · intro h
        have hlen2 : (app.targetArray.set j returned).length + 1 = app.targetArray.length := h
        rw [List.length_set] at hlen2
        omega
    · constructor
      · intro h
        rw [hact] at h
        simp [hdead] at h
      · intro h
        have hlen2 : (app.targetArray.set j returned).length + 1 = app.targetArray.length := h
        rw [List.length_set] at hlen2
        omega
    · exact ⟨fun _ => by simp, fun _ => by rw [hact]; simp [hdead]⟩

/-- C28 on the rifle scene: a plain shot returns `near` at health 1/2, still in slot 0,
and logs `hit`; `fire(true)` returns it at health 0, removed, and logs `destroy`. -/
theorem C28_logged_action_matches_removal_witness :
    fireAction (rifleScene.fire rayThroughBoth ⟨3, 3⟩ false).1 = PlayerAction.hit ∧
    fireAction (rifleScene.fire rayThroughBoth ⟨3, 3⟩ true).1 = PlayerAction.destroy ∧
    (rifleScene.fire rayThroughBoth ⟨3, 3⟩ true).2.targetArray.length + 1
      = rifleScene.targetArray.length := by
  have hret1 : (rifleScene.fire rayThroughBoth ⟨3, 3⟩ false).1
      = some { nearTarget with m_health := 1 / 2 } := by
    rw [fire_of_hit_returns rifleScene rayThroughBoth ⟨3, 3⟩ false 0 nearTarget rfl rfl rfl]
    simp [TargetEntity.doDamage, fireDamage, rifleScene, nearTarget]
    norm_num
  have hret2 : (rifleScene.fire rayThroughBoth ⟨3, 3⟩ true).1
      = some { nearTarget with m_health := 0 } := by
    rw [fire_of_hit_returns rifleScene rayThroughBoth ⟨3, 3⟩ true 0 nearTarget rfl rfl rfl]
    simp [TargetEntity.doDamage, fireDamage, TargetEntity.health]
  obtain ⟨_, _, _, _, hkeep, _, _, _⟩ := C28_logged_action_matches_removal rifleScene
    rayThroughBoth ⟨3, 3⟩ false _ hret1
  obtain ⟨_, _, _, hgone, _, hiff, _, _⟩ := C28_logged_action_matches_removal rifleScene
    rayThroughBoth ⟨3, 3⟩ true _ hret2
  have hdead : ({ nearTarget with m_health := 0 } : TargetEntity).m_health ≤ 0 := le_refl _
  have halive : ¬ ({ nearTarget with m_health := 1 / 2 } : TargetEntity).m_health ≤ 0 := by
    norm_num
  exact ⟨(hkeep halive).2.2, (hgone hdead).2, hiff.mp hdead⟩


/-! ## Theorems: the projectile expiry loop -/

/-- Overwriting slot `p` leaves the first `p` elements alone and puts the new element in
front of the rest. -/
theorem set_take_drop {α : Type} (x : α) :
    ∀ (l : List α) (p : Nat), p < l.length →
      (l.set p x).take p = l.take p ∧ (l.set p x).drop p = x :: l.drop (p + 1) := by
  intro l
  induction l with
  | nil => intro p hp; simp at hp
  | cons a rest ih =>
    intro p hp
    cases p with
    | zero => simp
    | succ k =>
      have hk : k < rest.length := by simpa using hp
      obtain ⟨h1, h2⟩ := ih k hk
      simp [h1, h2]

/-- After `fastRemove(p)` the first `p` slots are untouched and the slots from `p` on
hold, in some order, what used to follow slot `p`. -/
theorem fastRemove_take_drop {α : Type} (l : List α) (p : Nat) (hp : p < l.length) :
    (fastRemove l p).take p = l.take p ∧
    ((fastRemove l p).drop p).Perm (l.drop (p + 1)) := by
  rcases List.eq_nil_or_concat l with hnil | ⟨init, last, hl⟩
  · subst hnil; simp at hp
  · subst hl
    rw [List.concat_eq_append] at hp ⊢
    have hlast : (init ++ [last]).getLast? = some last := List.getLast?_concat init
    simp only [fastRemove, hlast]
    by_cases hlt : p < init.length
    · rw [List.set_append_left p last hlt, List.dropLast_concat]
      obtain ⟨h1, h2⟩ := set_take_drop last init p hlt
      rw [h1, h2, List.take_append_of_le_length (le_of_lt hlt),
        List.drop_append_of_le_length (by omega : p + 1 ≤ init.length)]
      exact ⟨rfl, (List.perm_append_singleton last _).symm⟩
    · have hpe : p = init.length := by
        simp only [List.length_append, List.length_singleton] at hp
        omega
      subst hpe
      rw [List.set_append_right _ _ (le_refl _)]
      simp

/-- The loop from index `p`: the first `p` slots and the unexpired elements behind them
are what is left, and the elements read are exactly those from slot `p` on. -/
theorem expireProjectiles_spec (now : ℚ) :
    ∀ (n : Nat) (l : List Projectile) (p : Nat), l.length - p = n → p ≤ l.length →
      (expireProjectiles now l p).1.Perm
        (l.take p ++ (l.drop p).filter (fun q => decide (¬ q.endTime < now))) ∧
      (expireProjectiles now l p).2.Perm (l.drop p) := by
  intro n
  induction n using Nat.strong_induction_on with
  | _ n ih =>
    intro l p hn hp
    by_cases h : p < l.length
    · have hdrop : l.drop p = l.get ⟨p, h⟩ :: l.drop (p + 1) := List.drop_eq_getElem_cons h
      by_cases hexp : (l.get ⟨p, h⟩).endTime < now
      · have hlen := fastRemove_length l p h
        obtain ⟨htake, hperm⟩ := fastRemove_take_drop l p h
        obtain ⟨ih1, ih2⟩ := ih ((fastRemove l p).length - p) (by omega) (fastRemove l p) p rfl
          (by omega)
        rw [expireProjectiles]
        simp only [h, dite_true, hexp, if_true]
        rw [hdrop, List.filter_cons_of_neg (by simpa using hexp)]
        refine ⟨?_, ?_⟩
        · refine ih1.trans ?_
          rw [htake]
          exact List.Perm.append_left _ (hperm.filter _)
        · exact List.Perm.cons _ (ih2.trans hperm)
      · obtain ⟨ih1, ih2⟩ := ih (l.length - (p + 1)) (by omega) l (p + 1) rfl (by omega)
        rw [expireProjectiles]
        simp only [h, dite_true, hexp, if_false]
        rw [hdrop, List.filter_cons_of_pos (by simpa using hexp)]
        refine ⟨?_, List.Perm.cons _ ih2⟩
        refine ih1.trans ?_
        have htk : l.take (p + 1) = l.take p ++ [l.get ⟨p, h⟩] := by
          rw [List.take_succ, List.getElem?_eq_getElem h]
          rfl
        rw [htk, List.append_assoc]
        rfl
    · have hpe : p = l.length := by omega
      rw [expireProjectiles]
      simp only [h, dite_false]
      subst hpe
      simp

/-- C25: the remove-during-iteration loop terminates (the loop function is total),
reads every element of the array exactly once, and leaves exactly the projectiles whose
`endTime` is not less than `now`: the same elements with the same multiplicities, none
skipped, none removed wrongly. -/
theorem C25_expire_loop (now : ℚ) (projectileArray : List Projectile) :
    (expireProjectiles now projectileArray 0).1.Perm
      (projectileArray.filter (fun q => decide (¬ q.endTime < now))) ∧
    (expireProjectiles now projectileArray 0).2.Perm projectileArray ∧
    (expireProjectiles now projectileArray 0).2.length = projectileArray.length ∧
    (∀ q, q ∈ (expireProjectiles now projectileArray 0).1 ↔
      q ∈ projectileArray ∧ ¬ q.endTime < now) := by
  obtain ⟨h1, h2⟩ := expireProjectiles_spec now projectileArray.length projectileArray 0 rfl
    (Nat.zero_le _)
  simp only [List.take_zero, List.drop_zero, List.nil_append] at h1 h2
  refine ⟨h1, h2, h2.length_eq, ?_⟩
  intro q
  rw [h1.mem_iff]
  simp


/-- C25 on three projectiles at time 10: the two expired ones (end times 9 and 8) are
removed and the one ending at 12 is all that is left; three elements were read. -/
theorem C25_expire_loop_witness :
    (expireProjectiles 10 threeProjectiles 0).1 = [⟨"bullet002", 12⟩] ∧
    (expireProjectiles 10 threeProjectiles 0).2.length = 3 := by
  have h := C25_expire_loop 10 threeProjectiles
  have hf : threeProjectiles.filter (fun q => decide (¬ q.endTime < 10))
      = [⟨"bullet002", 12⟩] := by
    simp [threeProjectiles, List.filter]
    norm_num
  rw [hf] at h
  exact ⟨List.perm_singleton.mp h.1, h.2.2.1⟩

/-! ## Theorems: the input handler -/

/-- In non-autoFire mode a frame calls `fire()` only with the button down and a release
seen in this frame or pending from before. -/
theorem onUserInput_fires (s : InputState) (ui : UserInput)
    (h : (onUserInput false s ui).2.1 = true) :
    ui.keyDown = true ∧ (ui.keyReleased = true ∨ s.haveReleased = true) := by
  unfold onUserInput at h
  cases hd : ui.keyDown <;> cases hr : ui.keyReleased <;> cases hs : s.haveReleased <;>
    cases ht : ui.inTask <;> cases hy : ui.responseReady <;> simp_all

/-- In non-autoFire mode the pending-release flag after a frame is up only if the button
was not down in that frame and a release was seen in it or was pending before. -/
theorem onUserInput_haveReleased (s : InputState) (ui : UserInput)
    (h : (onUserInput false s ui).1.haveReleased = true) :
    ui.keyDown = false ∧ (ui.keyReleased = true ∨ s.haveReleased = true) := by
  unfold onUserInput at h
  cases hd : ui.keyDown <;> cases hr : ui.keyReleased <;> cases hs : s.haveReleased <;>
    cases ht : ui.inTask <;> cases hy : ui.responseReady <;> simp_all

/-- In non-autoFire mode, a pending release before frame `n` was seen after the last
frame in which the button was down. -/
theorem pending_release_after_last_down (start : InputState) (ui : Nat → UserInput) :
    ∀ n : Nat, (inputStateAt false start ui n).haveReleased = true →
      ∀ i : Nat, i < n → (ui i).keyDown = true →
        ∃ f : Nat, i < f ∧ f < n ∧ (ui f).keyReleased = true := by
  intro n
  induction n with
  | zero => intro _ i hi; omega
  | succ m ih =>
    intro h i hi hdown
    obtain ⟨hnd, hrel⟩ := onUserInput_haveReleased (inputStateAt false start ui m) (ui m) h
    have him : i ≠ m := by
      intro heq
      rw [heq, hnd] at hdown
      cases hdown
    have hlt : i < m := by omega
    rcases hrel with hr | hp
    · exact ⟨m, hlt, by omega, hr⟩
    · obtain ⟨f, h1, h2, h3⟩ := ih hp i hlt hdown
      exact ⟨f, h1, by omega, h3⟩

/-- C26: in non-autoFire mode, over every stream of input frames and from every handler
state, between any two frames `i < k` in which `onUserInput` calls `fire()` there is a
frame `f` with `i < f ≤ k` in which the button was released; so while no release is seen
after a firing frame, no later frame fires: holding the button down fires at most once. -/
theorem C26_release_between_clicks (start : InputState) (ui : Nat → UserInput) (i k : Nat)
    (hik : i < k)
    (hfi : firesAt false start ui i = true) :
    (firesAt false start ui k = true →
      ∃ f : Nat, i < f ∧ f ≤ k ∧ (ui f).keyReleased = true) ∧
    ((∀ f : Nat, i < f → f ≤ k → (ui f).keyReleased = false) →
      firesAt false start ui k = false) := by
  have hdown : (ui i).keyDown = true :=
    (onUserInput_fires (inputStateAt false start ui i) (ui i) hfi).1
  have hmain : firesAt false start ui k = true →
      ∃ f : Nat, i < f ∧ f ≤ k ∧ (ui f).keyReleased = true := by
    intro hfk
    rcases (onUserInput_fires (inputStateAt false start ui k) (ui k) hfk).2 with hr | hp
    · exact ⟨k, hik, le_refl k, hr⟩
    · obtain ⟨f, h1, h2, h3⟩ := pending_release_after_last_down start ui k hp i hik hdown
      exact ⟨f, h1, le_of_lt h2, h3⟩
  refine ⟨hmain, ?_⟩
  intro hnone
  by_contra hne
  have hfk : firesAt false start ui k = true := by simpa using hne
  obtain ⟨f, h1, h2, h3⟩ := hmain hfk
  rw [hnone f h1 h2] at h3
  cases h3

/-- C26 on a held button with a single release event in frame 3, starting with a release
pending: frames 0 and 3 fire, frames 1, 2 and 4 do not. -/
theorem C26_release_between_clicks_witness :
    firesAt false { haveReleased := true } heldWithOneRelease 0 = true ∧
    firesAt false { haveReleased := true } heldWithOneRelease 1 = false ∧
    firesAt false { haveReleased := true } heldWithOneRelease 2 = false ∧
    firesAt false { haveReleased := true } heldWithOneRelease 3 = true ∧
    (∃ f : Nat, 0 < f ∧ f ≤ 3 ∧ (heldWithOneRelease f).keyReleased = true) := by
  have h0 : firesAt false { haveReleased := true } heldWithOneRelease 0 = true := by decide
  have h3 : firesAt false { haveReleased := true } heldWithOneRelease 3 = true := by decide
  have h1 := (C26_release_between_clicks { haveReleased := true } heldWithOneRelease 0 1
    (by decide) h0).2 (by
      intro f hf1 hf2
      have : f = 1 := by omega
      subst this
      decide)
  have h2 := (C26_release_between_clicks { haveReleased := true } heldWithOneRelease 0 2
    (by decide) h0).2 (by
      intro f hf1 hf2
      have : f = 1 ∨ f = 2 := by omega
      rcases this with rfl | rfl <;> decide)
  exact ⟨h0, h1, h2, h3,
    (C26_release_between_clicks { haveReleased := true } heldWithOneRelease 0 3
      (by decide) h0).1 h3⟩

/-! ## Theorems: the display-lag buffers -/

/-- The allocation loop from `i ≥ -1` pushes `i + 1` buffers. -/
theorem allocateDelayBuffers_length :
    ∀ (n : Nat) (i : Int) (queue : List Nat), (i + 1).toNat = n → -1 ≤ i →
      ((allocateDelayBuffers i queue).length : Int) = (queue.length : Int) + (i + 1) := by
  intro n
  induction n with
  | zero =>
    intro i queue hn hi
    have hi2 : i = -1 := by omega
    subst hi2
    rw [allocateDelayBuffers]
    simp
  | succ m ih =>
    intro i queue hn hi
    have hi0 : 0 ≤ i := by omega
    rw [allocateDelayBuffers]
    simp only [hi0, if_true]
    rw [ih (i - 1) (queue ++ [queue.length]) (by omega) (by omega)]
    simp only [List.length_append, List.length_singleton]
    push_cast
    ring

/-- C30: in `onGraphics3D` with `m_displayLagFrames > 0` and a non-negative
`m_currentDelayBufferIndex`: if the queue held at most `m_displayLagFrames` buffers, after
the allocation loop it holds exactly `m_displayLagFrames + 1`; and, whatever the queue
held, the index, both after the `min` clamp and after the modulo advance, lies in
`[0, m_displayLagFrames]` and is a valid index into the queue. -/
theorem C30_delay_buffer_index (s : DelayBuffers)
    (hlag : 0 < s.m_displayLagFrames)
    (hidx : 0 ≤ s.m_currentDelayBufferIndex) :
    ((s.m_ldrDelayBufferQueue.length : Int) ≤ s.m_displayLagFrames →
      (s.beforeRender.m_ldrDelayBufferQueue.length : Int) = s.m_displayLagFrames + 1) ∧
    0 ≤ s.beforeRender.m_currentDelayBufferIndex ∧
    s.beforeRender.m_currentDelayBufferIndex ≤ s.m_displayLagFrames ∧
    s.beforeRender.m_currentDelayBufferIndex.toNat
      < s.beforeRender.m_ldrDelayBufferQueue.length ∧
    0 ≤ s.beforeRender.afterRender.m_currentDelayBufferIndex ∧
    s.beforeRender.afterRender.m_currentDelayBufferIndex ≤ s.m_displayLagFrames ∧
    s.beforeRender.afterRender.m_currentDelayBufferIndex.toNat
      < s.beforeRender.afterRender.m_ldrDelayBufferQueue.length := by
  have hq : (s.m_ldrDelayBufferQueue.length : Int) ≤ s.m_displayLagFrames →
      (s.beforeRender.m_ldrDelayBufferQueue.length : Int) = s.m_displayLagFrames + 1 := by
    intro hsize
    simp only [DelayBuffers.beforeRender, hlag, if_true, hsize]
    rw [allocateDelayBuffers_length _ _ _ rfl (by omega)]
    ring
  have hge : s.m_displayLagFrames + 1 ≤ (s.beforeRender.m_ldrDelayBufferQueue.length : Int) := by
    by_cases hsize : (s.m_ldrDelayBufferQueue.length : Int) ≤ s.m_displayLagFrames
    · rw [hq hsize]
    · simp only [DelayBuffers.beforeRender, hlag, if_true, hsize, if_false]
      omega
  have hi : s.beforeRender.m_currentDelayBufferIndex
      = min s.m_displayLagFrames s.m_currentDelayBufferIndex := by
    simp only [DelayBuffers.beforeRender, hlag, if_true]
  have hl : s.beforeRender.m_displayLagFrames = s.m_displayLagFrames := by
    simp only [DelayBuffers.beforeRender, hlag, if_true]
  have h0 : 0 ≤ s.beforeRender.m_currentDelayBufferIndex := by
    rw [hi]; exact le_min (le_of_lt hlag) hidx
  have h1 : s.beforeRender.m_currentDelayBufferIndex ≤ s.m_displayLagFrames := by
    rw [hi]; exact min_le_left _ _
  have ha : s.beforeRender.afterRender.m_currentDelayBufferIndex
      = (s.beforeRender.m_currentDelayBufferIndex + 1) % (s.m_displayLagFrames + 1) := by
    simp only [DelayBuffers.afterRender, hl, hlag, if_true]
    exact Int.tmod_eq_emod (by omega) (by omega)
  have haq : s.beforeRender.afterRender.m_ldrDelayBufferQueue
      = s.beforeRender.m_ldrDelayBufferQueue := by
    simp only [DelayBuffers.afterRender, hl, hlag, if_true]
  have h2 : 0 ≤ s.beforeRender.afterRender.m_currentDelayBufferIndex := by
    rw [ha]; exact Int.emod_nonneg _ (by omega)
  have h3 : s.beforeRender.afterRender.m_currentDelayBufferIndex ≤ s.m_displayLagFrames := by
    rw [ha]
    have := Int.emod_lt_of_pos (s.beforeRender.m_currentDelayBufferIndex + 1)
      (by omega : 0 < s.m_displayLagFrames + 1)
    omega
  refine ⟨hq, h0, h1, ?_, h2, h3, ?_⟩
  · omega
  · rw [haq]; omega

/-- C30 with a lag of 3 frames, one buffer allocated and a stale index 7: four buffers
after allocation, index 3 after the clamp and 0 after the advance. With the lag lowered
to 2 while five buffers are queued and the index is 4, nothing is allocated, the clamp
gives index 2 and the advance gives 0, both inside the queue of five. -/
theorem C30_delay_buffer_index_witness :
    lagThree.beforeRender.m_ldrDelayBufferQueue.length = 4 ∧
    lagThree.beforeRender.m_currentDelayBufferIndex = 3 ∧
    lagThree.beforeRender.afterRender.m_currentDelayBufferIndex = 0 ∧
    lagLowered.beforeRender.m_ldrDelayBufferQueue.length = 5 ∧
    lagLowered.beforeRender.m_currentDelayBufferIndex = 2 ∧
    lagLowered.beforeRender.m_currentDelayBufferIndex.toNat
      < lagLowered.beforeRender.m_ldrDelayBufferQueue.length ∧
    lagLowered.beforeRender.afterRender.m_currentDelayBufferIndex = 0 := by
  have h := C30_delay_buffer_index lagThree (by decide) (by decide)
  have h2 := C30_delay_buffer_index lagLowered (by decide) (by decide)
  have hq : (lagThree.beforeRender.m_ldrDelayBufferQueue.length : Int) = 4 := h.1 (by decide)
  refine ⟨by exact_mod_cast hq, ?_, ?_, ?_, ?_, h2.2.2.2.1, ?_⟩
  · simp [DelayBuffers.beforeRender, lagThree]
  · simp [DelayBuffers.beforeRender, DelayBuffers.afterRender, lagThree]
  · simp [DelayBuffers.beforeRender, lagLowered]
  · simp [DelayBuffers.beforeRender, lagLowered]
  · simp [DelayBuffers.beforeRender, DelayBuffers.afterRender, lagLowered]


/-! ## Theorems: `FlyingEntity` as modelled from the spec -/

/-- The recursive separation check says that every pair of consecutive points subtends
at most 170 degrees. -/
theorem separationOk_iff (deg : Point3 → Point3 → Point3 → ℚ) (c : Point3) :
    ∀ l : List Point3, separationOk deg c l = true ↔
      ∀ (i : Nat) (a b : Point3), l[i]? = some a → l[i + 1]? = some b → deg c a b ≤ 170 := by
  intro l
  induction l with
  | nil => simp [separationOk]
  | cons x rest ih =>
    cases rest with
    | nil => simp [separationOk]
    | cons y tail =>
      simp only [separationOk, Bool.and_eq_true, decide_eq_true_eq, ih]
      constructor
      · rintro ⟨h0, hrest⟩ i a b ha hb
        cases i with
        | zero =>
          simp only [List.getElem?_cons_zero, Option.some.injEq, List.getElem?_cons_succ,
            zero_add] at ha hb
          rw [← ha, ← hb]
          exact h0
        | succ k =>
          rw [List.getElem?_cons_succ] at ha hb
          exact hrest k a b ha hb
      · intro h
        refine ⟨h 0 x y (by simp) (by simp), ?_⟩
        intro i a b ha hb
        exact h (i + 1) a b (by simpa using ha) (by simpa using hb)

/-- C21: `setDestinations` on a flying target replaces the destination list, resets the
destination cursor to 0 and keeps every other field but the orbit center it was given,
when every pair of consecutive destination points subtends at most 170 degrees at the
orbit center; it fails, producing no target state, when some consecutive pair subtends
more than 170 degrees. -/
theorem C21_setDestinations (deg : Point3 → Point3 → Point3 → ℚ) (e : FlyingEntity)
    (destinationArray : List Point3) (orbitCenter : Point3) :
    ((∀ (i : Nat) (a b : Point3), destinationArray[i]? = some a →
        destinationArray[i + 1]? = some b → deg orbitCenter a b ≤ 170) →
      e.setDestinations deg destinationArray orbitCenter =
        some { e with
          m_destinationPoints := destinationArray,
          m_orbitCenter := orbitCenter,
          destinationIdx := 0 } ∧
      ∃ updated, e.setDestinations deg destinationArray orbitCenter = some updated ∧
        updated.m_destinationPoints = destinationArray ∧ updated.destinationIdx = 0) ∧
    ((∃ (i : Nat) (a b : Point3), destinationArray[i]? = some a ∧
        destinationArray[i + 1]? = some b ∧ 170 < deg orbitCenter a b) →
      e.setDestinations deg destinationArray orbitCenter = none) := by
  refine ⟨?_, ?_⟩
  · intro h
    have hok := (separationOk_iff deg orbitCenter destinationArray).mpr h
    have hset : e.setDestinations deg destinationArray orbitCenter =
        some { e with
          m_destinationPoints := destinationArray,
          m_orbitCenter := orbitCenter,
          destinationIdx := 0 } := by
      simp [FlyingEntity.setDestinations, hok]
    exact ⟨hset, _, hset, rfl, rfl⟩
  · rintro ⟨i, a, b, ha, hb, hbig⟩
    have hbad : ¬ separationOk deg orbitCenter destinationArray = true := by
      intro hok
      have := (separationOk_iff deg orbitCenter destinationArray).mp hok i a b ha hb
      exact absurd this (not_le.mpr hbig)
    simp [FlyingEntity.setDestinations, hbad]

/-- C21 on axis points around the origin: a quarter turn followed by another quarter
turn is accepted and the cursor is 0; a half turn (180 degrees) is rejected. -/
theorem C21_setDestinations_witness :
    (∃ updated, upperFlyer.setDestinations axisAngleDegrees
        [⟨1, 0, 0⟩, ⟨0, 0, 1⟩, ⟨-1, 0, 0⟩] Point3.zero = some updated ∧
      updated.m_destinationPoints = [⟨1, 0, 0⟩, ⟨0, 0, 1⟩, ⟨-1, 0, 0⟩] ∧
      updated.destinationIdx = 0) ∧
    upperFlyer.setDestinations axisAngleDegrees [⟨1, 0, 0⟩, ⟨-1, 0, 0⟩] Point3.zero = none := by
  have h := C21_setDestinations axisAngleDegrees upperFlyer
    [⟨1, 0, 0⟩, ⟨0, 0, 1⟩, ⟨-1, 0, 0⟩] Point3.zero
  have h2 := C21_setDestinations axisAngleDegrees upperFlyer [⟨1, 0, 0⟩, ⟨-1, 0, 0⟩] Point3.zero
  refine ⟨(h.1 ?_).2, h2.2 ⟨0, ⟨1, 0, 0⟩, ⟨-1, 0, 0⟩, rfl, rfl, ?_⟩⟩
  · intro i a b ha hb
    match i, ha, hb with
    | 0, ha, hb =>
      simp only [List.getElem?_cons_zero, List.getElem?_cons_succ, Option.some.injEq,
        zero_add] at ha hb
      subst ha hb
      simp [axisAngleDegrees]
      norm_num
    | 1, ha, hb =>
      simp only [List.getElem?_cons_zero, List.getElem?_cons_succ, Option.some.injEq,
        zero_add] at ha hb
      subst ha hb
      simp [axisAngleDegrees]
      norm_num
    | n + 2, ha, hb =>
      simp at hb
  · simp [axisAngleDegrees]
    norm_num

/-- The `x` coordinate of a sum. -/
@[simp] theorem Vector3.add_x (a b : Vector3) : (a + b).x = a.x + b.x := rfl

/-- The `y` coordinate of a sum. -/
@[simp] theorem Vector3.add_y (a b : Vector3) : (a + b).y = a.y + b.y := rfl

/-- The `z` coordinate of a sum. -/
@[simp] theorem Vector3.add_z (a b : Vector3) : (a + b).z = a.z + b.z := rfl

/-- The `x` coordinate of a difference. -/
@[simp] theorem Vector3.sub_x (a b : Vector3) : (a - b).x = a.x - b.x := rfl

/-- The `y` coordinate of a difference. -/
@[simp] theorem Vector3.sub_y (a b : Vector3) : (a - b).y = a.y - b.y := rfl

/-- The `z` coordinate of a difference. -/
@[simp] theorem Vector3.sub_z (a b : Vector3) : (a - b).z = a.z - b.z := rfl

/-- The `x` coordinate of a negation. -/
@[simp] theorem Vector3.neg_x (a : Vector3) : (-a).x = -a.x := rfl

/-- The `y` coordinate of a negation. -/
@[simp] theorem Vector3.neg_y (a : Vector3) : (-a).y = -a.y := rfl

/-- The `z` coordinate of a negation. -/
@[simp] theorem Vector3.neg_z (a : Vector3) : (-a).z = -a.z := rfl

/-- The `x` coordinate of a scaled vector. -/
@[simp] theorem Vector3.mul_x (a : Vector3) (s : ℝ) : (a * s).x = a.x * s := rfl

/-- The `y` coordinate of a scaled vector. -/
@[simp] theorem Vector3.mul_y (a : Vector3) (s : ℝ) : (a * s).y = a.y * s := rfl

/-- The `z` coordinate of a scaled vector. -/
@[simp] theorem Vector3.mul_z (a : Vector3) (s : ℝ) : (a * s).z = a.z * s := rfl

/-- Adding an offset to a point and subtracting the point gives the offset back. -/
theorem Vector3.add_sub_cancel_left (c v : Vector3) : c + v - c = v := by
  ext <;> simp

/-- The squared magnitude is non-negative. -/
theorem Vector3.squaredMagnitude_nonneg (a : Vector3) : 0 ≤ a.squaredMagnitude := by
  unfold Vector3.squaredMagnitude
  nlinarith [mul_self_nonneg a.x, mul_self_nonneg a.y, mul_self_nonneg a.z]

/-- The squared magnitude of a scaled vector. -/
theorem Vector3.squaredMagnitude_mul (a : Vector3) (s : ℝ) :
    (a * s).squaredMagnitude = s * s * a.squaredMagnitude := by
  simp only [Vector3.squaredMagnitude, Vector3.mul_x, Vector3.mul_y, Vector3.mul_z]
  ring

/-- The magnitude of a vector scaled by a non-negative factor. -/
theorem Vector3.magnitude_mul (a : Vector3) (s : ℝ) (hs : 0 ≤ s) :
    (a * s).magnitude = a.magnitude * s := by
  unfold Vector3.magnitude
  rw [Vector3.squaredMagnitude_mul, Real.sqrt_mul (mul_self_nonneg s), Real.sqrt_mul_self hs]
  ring

/-- The dot product of two scaled vectors. -/
theorem Vector3.dot_mul (a b : Vector3) (s t : ℝ) :
    (a * s).dot (b * t) = s * t * a.dot b := by
  simp only [Vector3.dot, Vector3.mul_x, Vector3.mul_y, Vector3.mul_z]
  ring

/-- A vector that is not zero has a direction of magnitude 1. -/
theorem Vector3.direction_magnitude (a : Vector3) (h : 0 < a.squaredMagnitude) :
    a.direction.magnitude = 1 := by
  have hs : 0 < Real.sqrt a.squaredMagnitude := Real.sqrt_pos.mpr h
  unfold Vector3.direction
  rw [Vector3.magnitude_mul a _ (le_of_lt (one_div_pos.mpr hs))]
  unfold Vector3.magnitude
  field_simp

/-- The dot product of two directions is the dot product of the vectors over the product
of their magnitudes. -/
theorem Vector3.dot_direction (a b : Vector3) :
    a.direction.dot b.direction = a.dot b / (a.magnitude * b.magnitude) := by
  unfold Vector3.direction Vector3.magnitude
  rw [Vector3.dot_mul]
  ring


/-! ## Theorems: the ballistic correction step as modelled from the spec -/

/-- The correction step puts a non-zero horizontal component at distance `orbitRadius`
and leaves the jump offset alone. -/
theorem surfaceCorrection_spec (orbitRadius : ℝ) (p : BallisticPose)
    (hr : 0 < orbitRadius) (hp : 0 < p.horizontalDistance) :
    (surfaceCorrection orbitRadius p).horizontalDistance = orbitRadius ∧
    (surfaceCorrection orbitRadius p).jumpOffset = p.jumpOffset := by
  unfold surfaceCorrection
  by_cases h : p.horizontalDistance = orbitRadius
  · simp only [h, if_true, and_self]
  · simp only [h, if_false, and_true]
    show (p.horizontal * (orbitRadius / p.horizontalDistance)).magnitude = orbitRadius
    rw [Vector3.magnitude_mul _ _ (le_of_lt (div_pos hr hp))]
    show p.horizontalDistance * (orbitRadius / p.horizontalDistance) = orbitRadius
    field_simp

/-- The position of a pose, less the orbit center and the jump offset, is the horizontal
component. -/
theorem BallisticPose.position_sub (orbitCenter : Vector3) (p : BallisticPose) :
    p.position orbitCenter - orbitCenter - Vector3.unitY * p.jumpOffset = p.horizontal := by
  unfold BallisticPose.position
  ext <;> simp only [Vector3.add_x, Vector3.add_y, Vector3.add_z, Vector3.sub_x, Vector3.sub_y,
    Vector3.sub_z, Vector3.mul_x, Vector3.mul_y, Vector3.mul_z] <;> ring

/-- C23: for every ballistic (jumping) target and every horizontal displacement and jump
offset of a tick, after the tick's correction step the horizontal distance of the target
from `orbitCenter` equals `orbitRadius` (exactly, hence within the tolerance `1e-4`), and
the correction leaves the vertical jump offset unchanged. The orbit radius is positive, as
construction requires, and the horizontal component is not the zero vector, which has no
direction to be rescaled along. -/
theorem C23_correction_restores_radius (orbitRadius : ℝ) (displacement : Vector3)
    (jumpOffset : ℝ) (p : BallisticPose)
    (hr : 0 < orbitRadius)
    (hp : 0 < (p.horizontal + displacement).magnitude) :
    (ballisticTick orbitRadius displacement jumpOffset p).horizontalDistance = orbitRadius ∧
    |(ballisticTick orbitRadius displacement jumpOffset p).horizontalDistance - orbitRadius|
      ≤ 1 / 10000 ∧
    (ballisticTick orbitRadius displacement jumpOffset p).jumpOffset = jumpOffset ∧
    (∀ orbitCenter : Vector3,
      ((ballisticTick orbitRadius displacement jumpOffset p).position orbitCenter - orbitCenter
        - Vector3.unitY * (ballisticTick orbitRadius displacement jumpOffset p).jumpOffset
        ).magnitude = orbitRadius) ∧
    (∀ q : BallisticPose, 0 < q.horizontalDistance →
      (surfaceCorrection orbitRadius q).horizontalDistance = orbitRadius ∧
      (surfaceCorrection orbitRadius q).jumpOffset = q.jumpOffset) := by
  have h := surfaceCorrection_spec orbitRadius
    { horizontal := p.horizontal + displacement, jumpOffset := jumpOffset } hr hp
  refine ⟨h.1, ?_, h.2, ?_, fun q hq => surfaceCorrection_spec orbitRadius q hr hq⟩
  · unfold ballisticTick
    rw [h.1]
    norm_num
  · intro orbitCenter
    rw [BallisticPose.position_sub]
    exact h.1

/-- C23 on a pose whose horizontal component `(3, 0, 4)` drifts by `(3, 0, 4)` to length
10 while the target jumps to height 2: the correction for `orbitRadius = 5` brings the
horizontal distance back to 5 and keeps the jump offset 2. -/
theorem C23_correction_restores_radius_witness :
    0 < (driftedPose.horizontal + (⟨3, 0, 4⟩ : Vector3)).magnitude ∧
    (ballisticTick 5 ⟨3, 0, 4⟩ 2 driftedPose).horizontalDistance = 5 ∧
    |(ballisticTick 5 ⟨3, 0, 4⟩ 2 driftedPose).horizontalDistance - 5| ≤ 1 / 10000 ∧
    (ballisticTick 5 ⟨3, 0, 4⟩ 2 driftedPose).jumpOffset = 2 := by
  have hp : 0 < (driftedPose.horizontal + (⟨3, 0, 4⟩ : Vector3)).magnitude := by
    unfold Vector3.magnitude
    apply Real.sqrt_pos.mpr
    simp only [Vector3.squaredMagnitude, Vector3.add_x, Vector3.add_y, Vector3.add_z,
      driftedPose]
    norm_num
  have h := C23_correction_restores_radius 5 ⟨3, 0, 4⟩ 2 driftedPose (by norm_num) hp
  exact ⟨hp, h.1, h.2.1, h.2.2.1⟩


/-! ## Theorems: the destinations of `spawnRandomTarget` -/

/-- For a camera that does not look straight up or down, the axis `Z` is horizontal and
of unit length. -/
theorem spawnAxisZ_spec (lookVector : Vector3)
    (hlook : lookVector.x ≠ 0 ∨ lookVector.z ≠ 0) :
    (spawnAxisZ lookVector).y = 0 ∧
    (spawnAxisZ lookVector).x * (spawnAxisZ lookVector).x +
      (spawnAxisZ lookVector).z * (spawnAxisZ lookVector).z = 1 := by
  have hq : 0 < lookVector.x * lookVector.x + lookVector.z * lookVector.z := by
    rcases hlook with h | h
    · have := mul_self_pos.mpr h
      nlinarith [mul_self_nonneg lookVector.z]
    · have := mul_self_pos.mpr h
      nlinarith [mul_self_nonneg lookVector.x]
  have hs : 0 < Real.sqrt (lookVector.x * lookVector.x + lookVector.z * lookVector.z) :=
    Real.sqrt_pos.mpr hq
  have hss := Real.mul_self_sqrt (le_of_lt hq)
  have hsq : (Vector3.mk (-lookVector).x 0 (-lookVector).z).squaredMagnitude
      = lookVector.x * lookVector.x + lookVector.z * lookVector.z := by
    simp only [Vector3.squaredMagnitude, Vector3.neg_x, Vector3.neg_z]
    ring
  unfold spawnAxisZ Vector3.direction
  rw [hsq]
  simp only [Vector3.mul_x, Vector3.mul_y, Vector3.mul_z, Vector3.neg_x, Vector3.neg_z,
    zero_mul, true_and]
  field_simp

/-- The vector `-Z + X * u + Y * v` of `spawnRandomTarget` in the frame of a horizontal
unit axis `Z`: its squared magnitude is `1 + u² + v²`, and the dot product of two such
vectors is `1 + u1·u2 + v1·v2`. -/
theorem spawn_vector_dot (Z : Vector3) (hy : Z.y = 0) (hz : Z.x * Z.x + Z.z * Z.z = 1)
    (d1 d2 : DirectionDraw) :
    (-Z + (Vector3.unitY.cross Z) * d1.side + Vector3.unitY * d1.rise).dot
      (-Z + (Vector3.unitY.cross Z) * d2.side + Vector3.unitY * d2.rise)
      = 1 + d1.side * d2.side + d1.rise * d2.rise := by
  simp only [Vector3.dot, Vector3.cross, Vector3.unitY, Vector3.add_x, Vector3.add_y,
    Vector3.add_z, Vector3.neg_x, Vector3.neg_y, Vector3.neg_z, Vector3.mul_x, Vector3.mul_y,
    Vector3.mul_z, hy]
  linear_combination (1 + d1.side * d2.side) * hz

/-- The squared magnitude of the vector `-Z + X * u + Y * v`. -/
theorem spawn_vector_squaredMagnitude (Z : Vector3) (hy : Z.y = 0)
    (hz : Z.x * Z.x + Z.z * Z.z = 1) (d : DirectionDraw) :
    (-Z + (Vector3.unitY.cross Z) * d.side + Vector3.unitY * d.rise).squaredMagnitude
      = 1 + d.side * d.side + d.rise * d.rise := by
  have h := spawn_vector_dot Z hy hz d d
  simpa [Vector3.dot, Vector3.squaredMagnitude] using h

/-- A random direction has magnitude 1. -/
theorem randomDirection_magnitude (Z : Vector3) (hy : Z.y = 0)
    (hz : Z.x * Z.x + Z.z * Z.z = 1) (d : DirectionDraw) :
    (randomDirection Z d).magnitude = 1 := by
  unfold randomDirection
  apply Vector3.direction_magnitude
  rw [spawn_vector_squaredMagnitude Z hy hz d]
  nlinarith [mul_self_nonneg d.side, mul_self_nonneg d.rise]

/-- The dot product of two random directions whose draws are in range is at least
`-1/2`. -/
theorem randomDirection_dot_ge (Z : Vector3) (hy : Z.y = 0)
    (hz : Z.x * Z.x + Z.z * Z.z = 1) (d1 d2 : DirectionDraw)
    (h1 : d1.inRange) (h2 : d2.inRange) :
    -(1 / 2) ≤ (randomDirection Z d1).dot (randomDirection Z d2) := by
  unfold randomDirection
  rw [Vector3.dot_direction, spawn_vector_dot Z hy hz d1 d2]
  unfold Vector3.magnitude
  rw [spawn_vector_squaredMagnitude Z hy hz d1, spawn_vector_squaredMagnitude Z hy hz d2]
  obtain ⟨ha1, ha2, ha3, ha4⟩ := h1
  obtain ⟨hb1, hb2, hb3, hb4⟩ := h2
  have hm1 : 1 ≤ Real.sqrt (1 + d1.side * d1.side + d1.rise * d1.rise) := by
    rw [Real.one_le_sqrt]
    nlinarith [mul_self_nonneg d1.side, mul_self_nonneg d1.rise]
  have hm2 : 1 ≤ Real.sqrt (1 + d2.side * d2.side + d2.rise * d2.rise) := by
    rw [Real.one_le_sqrt]
    nlinarith [mul_self_nonneg d2.side, mul_self_nonneg d2.rise]
  have hD : 1 ≤ Real.sqrt (1 + d1.side * d1.side + d1.rise * d1.rise) *
      Real.sqrt (1 + d2.side * d2.side + d2.rise * d2.rise) := by
    nlinarith
  have hside : -1 ≤ d1.side * d2.side := by
    nlinarith [mul_nonneg (sub_nonneg.mpr ha2) (sub_nonneg.mpr hb2),
      mul_nonneg (by linarith : (0 : ℝ) ≤ d1.side + 1) (by linarith : (0 : ℝ) ≤ d2.side + 1)]
  have hrise : -(3 / 20) ≤ d1.rise * d2.rise := by
    nlinarith [mul_nonneg (sub_nonneg.mpr ha4) (sub_nonneg.mpr hb4),
      mul_nonneg (by linarith : (0 : ℝ) ≤ d1.rise + 3 / 10)
        (by linarith : (0 : ℝ) ≤ d2.rise + 3 / 10)]
  rw [le_div_iff₀ (by linarith)]
  nlinarith

/-- The arc cosine of a value of at least `-1/2` is at most 120 degrees. -/
theorem arccos_degrees_le (x : ℝ) (hx : -(1 / 2) ≤ x) :
    Real.arccos x * 180 / Real.pi ≤ 120 := by
  have hpi : 0 < Real.pi := Real.pi_pos
  have h3 : Real.arccos (1 / 2) = Real.pi / 3 := by
    rw [← Real.cos_pi_div_three]
    exact Real.arccos_cos (by positivity) (by linarith)
  have hneg : Real.arccos (-(1 / 2)) = Real.pi - Real.pi / 3 := by
    rw [Real.arccos_neg, h3]
  have hle : Real.arccos x ≤ Real.pi - Real.pi / 3 := by
    rw [← hneg, Real.arccos_eq_pi_div_two_sub_arcsin x,
      Real.arccos_eq_pi_div_two_sub_arcsin (-(1 / 2))]
    have := Real.monotone_arcsin hx
    linarith
  rw [div_le_iff₀ hpi]
  linarith

/-- Two points at the same positive distance from the center along random directions
whose draws are in range subtend at most 120 degrees. -/
theorem subtendedAngle_randomDirection (Z : Vector3) (hy : Z.y = 0)
    (hz : Z.x * Z.x + Z.z * Z.z = 1) (d1 d2 : DirectionDraw)
    (h1 : d1.inRange) (h2 : d2.inRange) (center : Vector3) (distance : ℝ)
    (hd : 0 < distance) :
    subtendedAngle center (center + randomDirection Z d1 * distance)
      (center + randomDirection Z d2 * distance) ≤ 120 := by
  unfold subtendedAngle
  rw [Vector3.add_sub_cancel_left, Vector3.add_sub_cancel_left, Vector3.dot_mul,
    Vector3.magnitude_mul _ _ (le_of_lt hd), Vector3.magnitude_mul _ _ (le_of_lt hd),
    randomDirection_magnitude Z hy hz d1, randomDirection_magnitude Z hy hz d2]
  have hratio : distance * distance * (randomDirection Z d1).dot (randomDirection Z d2) /
      (1 * distance * (1 * distance)) = (randomDirection Z d1).dot (randomDirection Z d2) := by
    field_simp
  rw [hratio]
  exact arccos_degrees_le _ (randomDirection_dot_ge Z hy hz d1 d2 h1 h2)


/-- What a successful pass of the `do` loop hands on: the scene was hit beyond distance
2, the target is spawned along the ray at the drawn distance, the center is the camera
position, and the destinations are the spawn position followed by 20 points at the same
distance along random directions. -/
theorem spawnRandomTargetPass_some (lookVector translation : Vector3)
    (sceneIntersect : Vector3 → Vector3 → Option ℝ) (d : SpawnDraws) (result : SpawnResult)
    (h : spawnRandomTargetPass lookVector translation sceneIntersect d = some result) :
    ∃ hit : ℝ,
      sceneIntersect translation (randomDirection (spawnAxisZ lookVector) d.ray) = some hit ∧
      2 < hit ∧
      result.position =
        translation + randomDirection (spawnAxisZ lookVector) d.ray * d.distance ∧
      result.center = translation ∧
      result.destinationArray = result.position :: (List.range 20).map (fun i =>
        translation + randomDirection (spawnAxisZ lookVector) (d.destination i) * d.distance) := by
  unfold spawnRandomTargetPass at h
  cases hs : sceneIntersect translation (randomDirection (spawnAxisZ lookVector) d.ray) with
  | none =>
    simp only [hs] at h
    cases h
  | some hit =>
    simp only [hs] at h
    by_cases h2 : 2 < hit
    · simp only [h2, if_true] at h
      have hr := (Option.some.inj h).symm
      refine ⟨hit, rfl, h2, ?_, ?_, ?_⟩
      · rw [hr]
      · rw [hr]
      · rw [hr]
    · simp only [h2, if_false] at h
      cases h

/-- A result of the loop is the result of one of its passes. -/
theorem spawnRandomTargetLoop_some (lookVector translation : Vector3)
    (sceneIntersect : Vector3 → Vector3 → Option ℝ) (rng : Nat → SpawnDraws)
    (result : SpawnResult) :
    ∀ (k tries : Nat), 100 - tries = k →
      spawnRandomTargetLoop lookVector translation sceneIntersect rng tries = some result →
      ∃ n : Nat, spawnRandomTargetPass lookVector translation sceneIntersect (rng n)
        = some result := by
  intro k
  induction k with
  | zero =>
    intro tries hk h
    rw [spawnRandomTargetLoop] at h
    cases hp : spawnRandomTargetPass lookVector translation sceneIntersect (rng tries) with
    | some r =>
      simp only [hp] at h
      exact ⟨tries, by rw [hp, h]⟩
    | none =>
      simp only [hp] at h
      have hlt : ¬ (tries + 1 < 100) := by omega
      simp only [hlt, if_false] at h
      cases h
  | succ m ih =>
    intro tries hk h
    rw [spawnRandomTargetLoop] at h
    cases hp : spawnRandomTargetPass lookVector translation sceneIntersect (rng tries) with
    | some r =>
      simp only [hp] at h
      exact ⟨tries, by rw [hp, h]⟩
    | none =>
      simp only [hp] at h
      by_cases hlt : tries + 1 < 100
      · simp only [hlt, if_true] at h
        exact ih (tries + 1) (by omega) h
      · simp only [hlt, if_false] at h
        cases h

/-- C29: in `spawnRandomTarget`, for every camera look direction that is not vertical and
every value of the random draws within their ranges, the list handed to
`setDestinations` holds the spawn position of the target followed by 20 points, every one
of them lies at the same positive distance from the center, and every pair of consecutive
destinations subtends at most 170 degrees at the center. -/
theorem C29_spawn_destinations (lookVector translation : Vector3)
    (sceneIntersect : Vector3 → Vector3 → Option ℝ) (rng : Nat → SpawnDraws)
    (result : SpawnResult)
    (hlook : lookVector.x ≠ 0 ∨ lookVector.z ≠ 0)
    (hrange : ∀ n : Nat, (rng n).inRange
      (sceneIntersect translation (randomDirection (spawnAxisZ lookVector) (rng n).ray)))
    (hspawn : spawnRandomTarget lookVector translation sceneIntersect rng = some result) :
    result.destinationArray.length = 21 ∧
    result.destinationArray.head? = some result.position ∧
    (∃ distance : ℝ, 0 < distance ∧
      ∀ p ∈ result.destinationArray, (p - result.center).magnitude = distance) ∧
    (∀ (i : Nat) (a b : Vector3), result.destinationArray[i]? = some a →
      result.destinationArray[i + 1]? = some b →
      subtendedAngle result.center a b ≤ 170) := by
  obtain ⟨n, hpass⟩ := spawnRandomTargetLoop_some lookVector translation sceneIntersect rng
    result 100 0 rfl hspawn
  obtain ⟨hit, hhit, h2, hpos, hcenter, harr⟩ :=
    spawnRandomTargetPass_some lookVector translation sceneIntersect (rng n) result hpass
  obtain ⟨hray, hdest, hdist⟩ := hrange n
  obtain ⟨hy, hz⟩ := spawnAxisZ_spec lookVector hlook
  have hd : 0 < (rng n).distance :=
    lt_of_lt_of_le (lt_min (by norm_num) (by linarith)) (hdist hit hhit h2).1
  have hmem : ∀ p ∈ result.destinationArray, ∃ d : DirectionDraw, d.inRange ∧
      p = result.center + randomDirection (spawnAxisZ lookVector) d * (rng n).distance := by
    intro p hp
    rw [harr, List.mem_cons] at hp
    rcases hp with hp | hp
    · exact ⟨(rng n).ray, hray, by rw [hp, hpos, hcenter]⟩
    · rw [List.mem_map] at hp
      obtain ⟨i, _, hi⟩ := hp
      exact ⟨(rng n).destination i, hdest i, by rw [← hi, hcenter]⟩
  refine ⟨?_, ?_, ⟨(rng n).distance, hd, ?_⟩, ?_⟩
  · rw [harr]
    simp
  · rw [harr]
    simp
  · intro p hp
    obtain ⟨d, _, hpd⟩ := hmem p hp
    rw [hpd, Vector3.add_sub_cancel_left, Vector3.magnitude_mul _ _ (le_of_lt hd),
      randomDirection_magnitude _ hy hz d]
    ring
  · intro i a b ha hb
    obtain ⟨d1, hd1, hpa⟩ := hmem a (List.getElem?_mem ha)
    obtain ⟨d2, hd2, hpb⟩ := hmem b (List.getElem?_mem hb)
    rw [hpa, hpb]
    have h120 := subtendedAngle_randomDirection (spawnAxisZ lookVector) hy hz d1 d2 hd1 hd2
      result.center (rng n).distance hd
    linarith

/-- C29 for a camera looking along `-z` from the origin in a scene hit at distance 5,
with every direction drawn straight ahead and the distance drawn as 3: the routine hands
on 21 destinations, all at one distance from the center, consecutive ones at most 170
degrees apart. -/
theorem C29_spawn_destinations_witness :
    ∃ result : SpawnResult,
      spawnRandomTarget ⟨0, 0, -1⟩ ⟨0, 0, 0⟩ wallAtFive straightDraws = some result ∧
      result.destinationArray.length = 21 ∧
      (∃ distance : ℝ, 0 < distance ∧
        ∀ p ∈ result.destinationArray, (p - result.center).magnitude = distance) ∧
      (∀ (i : Nat) (a b : Vector3), result.destinationArray[i]? = some a →
        result.destinationArray[i + 1]? = some b →
        subtendedAngle result.center a b ≤ 170) := by
  have hex : ∃ result : SpawnResult,
      spawnRandomTarget ⟨0, 0, -1⟩ ⟨0, 0, 0⟩ wallAtFive straightDraws = some result := by
    unfold spawnRandomTarget
    rw [spawnRandomTargetLoop]
    simp only [spawnRandomTargetPass, wallAtFive]
    norm_num
  obtain ⟨result, hres⟩ := hex
  have h := C29_spawn_destinations ⟨0, 0, -1⟩ ⟨0, 0, 0⟩ wallAtFive straightDraws result
    (Or.inr (by norm_num))
    (by
      intro n
      refine ⟨?_, ?_, ?_⟩
      · simp only [DirectionDraw.inRange, straightDraws]
        norm_num
      · intro i
        simp only [DirectionDraw.inRange, straightDraws]
        norm_num
      · intro hit hhit _
        simp only [wallAtFive, Option.some.injEq] at hhit
        rw [← hhit]
        simp only [straightDraws]
        norm_num)
    hres
  exact ⟨result, hres, h.1, h.2.2.1, h.2.2.2⟩


end AbstractFps
